import Mathlib

/-!
# Verification of the CloudFormation-Init configuration-assembly engine

Shallow embedding of `packages/@aws-cdk/aws-ec2/lib/cfn-init.ts`:
the deep-merge engine (`deepMerge`), the per-config element binding
(`InitConfig._bind` / `bindForType`), the config / config-set registry
(`CloudFormationInit.addConfig` / `addConfigSet` / `bind`), and the
fingerprint computation of `CloudFormationInit._attach`.

JavaScript runtime values are modelled by the inductive type `JSVal`
(`undefined` and `null` are distinguished, objects are insertion-ordered
association lists, as JS objects with non-numeric string keys are).
Thrown `Error`s are modelled with `Except MergeErr`.
-/

set_option maxHeartbeats 1000000
set_option maxRecDepth 16384

namespace CfnInit

/-- A JavaScript runtime value as used by the cfn-init rendering code:
`undefined`, `null`, booleans, numbers (the documents at hand only use
integral numbers), strings, arrays, and plain objects modelled as
insertion-ordered association lists (JS objects preserve insertion order
for non-numeric string keys, the only keys this code produces).
Sparse arrays, expando properties on arrays, and reference identity of
objects are outside the model. -/
inductive JSVal where
  | undefined
  | null
  | bool (b : Bool)
  | num (n : Int)
  | str (s : String)
  | arr (elems : List JSVal)
  | obj (fields : List (String × JSVal))

mutual

/-- Structural decidable equality on `JSVal` (written by hand: automatic
derivation does not handle the nested `List` occurrences). -/
def JSVal.decEq : (a b : JSVal) → Decidable (a = b)
  | .undefined, .undefined => .isTrue rfl
  | .null, .null => .isTrue rfl
  | .bool a, .bool b =>
    if h : a = b then .isTrue (by rw [h]) else .isFalse (fun hh => h (JSVal.bool.inj hh))
  | .num a, .num b =>
    if h : a = b then .isTrue (by rw [h]) else .isFalse (fun hh => h (JSVal.num.inj hh))
  | .str a, .str b =>
    if h : a = b then .isTrue (by rw [h]) else .isFalse (fun hh => h (JSVal.str.inj hh))
  | .arr xs, .arr ys =>
    match JSVal.decEqList xs ys with
    | .isTrue h => .isTrue (by rw [h])
    | .isFalse h => .isFalse (fun hh => h (JSVal.arr.inj hh))
  | .obj fs, .obj gs =>
    match JSVal.decEqFields fs gs with
    | .isTrue h => .isTrue (by rw [h])
    | .isFalse h => .isFalse (fun hh => h (JSVal.obj.inj hh))
  | .undefined, .null => .isFalse nofun
  | .undefined, .bool _ => .isFalse nofun
  | .undefined, .num _ => .isFalse nofun
  | .undefined, .str _ => .isFalse nofun
  | .undefined, .arr _ => .isFalse nofun
  | .undefined, .obj _ => .isFalse nofun
  | .null, .undefined => .isFalse nofun
  | .null, .bool _ => .isFalse nofun
  | .null, .num _ => .isFalse nofun
  | .null, .str _ => .isFalse nofun
  | .null, .arr _ => .isFalse nofun
  | .null, .obj _ => .isFalse nofun
  | .bool _, .undefined => .isFalse nofun
  | .bool _, .null => .isFalse nofun
  | .bool _, .num _ => .isFalse nofun
  | .bool _, .str _ => .isFalse nofun
  | .bool _, .arr _ => .isFalse nofun
  | .bool _, .obj _ => .isFalse nofun
  | .num _, .undefined => .isFalse nofun
  | .num _, .null => .isFalse nofun
  | .num _, .bool _ => .isFalse nofun
  | .num _, .str _ => .isFalse nofun
  | .num _, .arr _ => .isFalse nofun
  | .num _, .obj _ => .isFalse nofun
  | .str _, .undefined => .isFalse nofun
  | .str _, .null => .isFalse nofun
  | .str _, .bool _ => .isFalse nofun
  | .str _, .num _ => .isFalse nofun
  | .str _, .arr _ => .isFalse nofun
  | .str _, .obj _ => .isFalse nofun
  | .arr _, .undefined => .isFalse nofun
  | .arr _, .null => .isFalse nofun
  | .arr _, .bool _ => .isFalse nofun
  | .arr _, .num _ => .isFalse nofun
  | .arr _, .str _ => .isFalse nofun
  | .arr _, .obj _ => .isFalse nofun
  | .obj _, .undefined => .isFalse nofun
  | .obj _, .null => .isFalse nofun
  | .obj _, .bool _ => .isFalse nofun
  | .obj _, .num _ => .isFalse nofun
  | .obj _, .str _ => .isFalse nofun
  | .obj _, .arr _ => .isFalse nofun
termination_by a _ => sizeOf a
decreasing_by all_goals (simp_wf <;> omega)

/-- Decidable equality of `JSVal` lists, mutually with `JSVal.decEq`. -/
def JSVal.decEqList : (as bs : List JSVal) → Decidable (as = bs)
  | [], [] => .isTrue rfl
  | [], _ :: _ => .isFalse nofun
  | _ :: _, [] => .isFalse nofun
  | a :: as, b :: bs =>
    match JSVal.decEq a b with
    | .isFalse h => .isFalse (fun hh => h (List.cons.inj hh).1)
    | .isTrue h1 =>
      match JSVal.decEqList as bs with
      | .isTrue h2 => .isTrue (by rw [h1, h2])
      | .isFalse h2 => .isFalse (fun hh => h2 (List.cons.inj hh).2)
termination_by as _ => sizeOf as
decreasing_by all_goals (simp_wf <;> omega)

/-- Decidable equality of `JSVal` field lists, mutually with `JSVal.decEq`. -/
def JSVal.decEqFields : (fs gs : List (String × JSVal)) → Decidable (fs = gs)
  | [], [] => .isTrue rfl
  | [], _ :: _ => .isFalse nofun
  | _ :: _, [] => .isFalse nofun
  | (k, v) :: fs, (k', v') :: gs =>
    if hk : k = k' then
      match JSVal.decEq v v' with
      | .isFalse h =>
        .isFalse (fun hh => h (congrArg Prod.snd (List.cons.inj hh).1))
      | .isTrue h1 =>
        match JSVal.decEqFields fs gs with
        | .isTrue h2 => .isTrue (by rw [hk, h1, h2])
        | .isFalse h2 => .isFalse (fun hh => h2 (List.cons.inj hh).2)
    else
      .isFalse (fun hh => hk (congrArg Prod.fst (List.cons.inj hh).1))
termination_by fs _ => sizeOf fs
decreasing_by all_goals (simp_wf <;> omega)

end

instance : DecidableEq JSVal := JSVal.decEq

deriving instance DecidableEq for Except

namespace JSVal

/-- JS loose equality to `null` (`x == null`), true for `undefined` and `null`. -/
def isNullish : JSVal → Bool
  | .undefined => true
  | .null => true
  | _ => false

/-- JS truthiness (`if (x)`). `NaN` does not occur in the model. -/
def truthy : JSVal → Bool
  | .undefined => false
  | .null => false
  | .bool b => b
  | .num n => n != 0
  | .str s => s ≠ ""
  | .arr _ => true
  | .obj _ => true

/-- `Array.isArray(x)`. -/
def isArray : JSVal → Bool
  | .arr _ => true
  | _ => false

end JSVal

/-- First-match lookup in an association list (JS property read on objects:
object keys are unique, so first match is the match). -/
def lookupR {α : Type} (xs : List (String × α)) (k : String) : Option α :=
  match xs with
  | [] => none
  | (k', v) :: rest => if k' = k then some v else lookupR rest k

/-- JS property read `x[k]`: `undefined` for a missing key or a non-object
receiver; arrays and strings answer numeric-string indices. -/
def getProp : JSVal → String → JSVal
  | .obj fields, k => (lookupR fields k).getD .undefined
  | .arr xs, k =>
    match k.toNat? with
    | some i => (xs.get? i).getD .undefined
    | none => .undefined
  | .str s, k =>
    match k.toNat? with
    | some i =>
      match s.toList.get? i with
      | some c => .str c.toString
      | none => .undefined
    | none => .undefined
  | _, _ => .undefined

/-- Assignment into an association list: update the (unique) existing key in
place, otherwise append — exactly JS property-assignment order semantics. -/
def objAssign (fields : List (String × JSVal)) (k : String) (v : JSVal) :
    List (String × JSVal) :=
  match fields with
  | [] => [(k, v)]
  | (k', w) :: rest => if k' = k then (k', v) :: rest else (k', w) :: objAssign rest k v

/-- Errors thrown while merging (`deepMerge` and strict-mode JS runtime errors). -/
inductive MergeErr where
  /-- `Trying to merge array [...] into a non-array '...'` thrown by `deepMerge`. -/
  | arrayIntoNonArray (value : List JSVal) (targetVal : JSVal)
  /-- Strict-mode `TypeError` on assigning a property of a primitive. -/
  | primitiveAssign (target : JSVal)
  /-- `TypeError` on spreading a non-iterable value. -/
  | notIterable (v : JSVal)
  deriving DecidableEq

/-- JS property write `x[k] = v` in strict mode: objects update-or-append;
arrays accept in-range numeric indices (appending at the exact end index;
sparse arrays are outside the model); writing on a primitive throws. -/
def setProp : JSVal → String → JSVal → Except MergeErr JSVal
  | .obj fields, k, v => .ok (.obj (objAssign fields k v))
  | .arr xs, k, v =>
    (match k.toNat? with
    | some i =>
      if i < xs.length then .ok (.arr (xs.set i v))
      else if i = xs.length then .ok (.arr (xs ++ [v]))
      else .ok (.arr xs)
    | none => .ok (.arr xs))
  | t, _, _ => .error (.primitiveAssign t)

/-- `Object.entries(x)`: an object's own entries in insertion order; index
entries for arrays and strings; empty for primitives. -/
def entriesOf : JSVal → List (String × JSVal)
  | .obj fields => fields
  | .arr xs => xs.enum.map (fun p => (toString p.1, p.2))
  | .str s => s.toList.enum.map (fun p => (toString p.1, .str p.2.toString))
  | _ => []

/-- Iteration order of `new Set(l)` (and so of `Array.from(new Set(l))`):
keep the first occurrence of each element, drop elements already `seen`.
Element equality is structural in the model (the rendered documents hold
primitives where de-duplication matters; JS `SameValueZero` on primitives
is structural equality). -/
def jsDedupAux : List JSVal → List JSVal → List JSVal
  | [], _ => []
  | x :: xs, seen => if x ∈ seen then jsDedupAux xs seen else x :: jsDedupAux xs (x :: seen)

/-- `Array.from(new Set(l))`. -/
def jsDedup (l : List JSVal) : List JSVal := jsDedupAux l []

/-- Spreading a value into an array literal (`[...x]`): arrays spread to their
elements, strings to their characters, anything else throws `TypeError`. -/
def spreadIter : JSVal → Except MergeErr (List JSVal)
  | .arr xs => .ok xs
  | .str s => .ok (s.toList.map fun c => .str c.toString)
  | v => .error (.notIterable v)

/-- The `for (const [key, value] of Object.entries(src))` loop body of
`deepMerge`, lines 255–273 of `cfn-init.ts`, folded over the entry list.
The recursive source call `deepMerge(target[key] ?? {}, value)` is made only
when `value` is a truthy non-array object, i.e. `value = .obj innerFields`,
and then both arguments are non-nullish, so that call reduces to this entry
loop on `innerFields` — which is how it is written here. -/
def mergeEntries : JSVal → List (String × JSVal) → Except MergeErr JSVal
  | target, [] => .ok target
  | target, (key, .arr value) :: rest =>
    -- if (Array.isArray(value)) { ... }
    let cur := getProp target key
    if cur.truthy && !cur.isArray then
      .error (.arrayIntoNonArray value cur)
    else
      match (if cur.isNullish then .ok [] else spreadIter cur :
          Except MergeErr (List JSVal)) with
      | .error e => .error e
      | .ok base =>
        match setProp target key (.arr (jsDedup (base ++ value))) with
        | .error e => .error e
        | .ok target' => mergeEntries target' rest
  | target, (key, .obj innerFields) :: rest =>
    -- if (typeof value === 'object' && value) { target[key] = deepMerge(target[key] ?? {}, value) }
    let cur := getProp target key
    match mergeEntries (if cur.isNullish then .obj [] else cur) innerFields with
    | .error e => .error e
    | .ok sub =>
      match setProp target key sub with
      | .error e => .error e
      | .ok target' => mergeEntries target' rest
  | target, (key, value) :: rest =>
    -- if (value !== undefined) { target[key] = value }
    if value = .undefined then mergeEntries target rest
    else
      match setProp target key value with
      | .error e => .error e
      | .ok target' => mergeEntries target' rest
termination_by _ l => sizeOf l
decreasing_by all_goals simp_wf <;> omega

/-- `deepMerge(target?, src?)`, lines 251–276 of `cfn-init.ts`. The source
mutates and returns `target`; the model returns the merged value, with thrown
errors in `Except`. -/
def deepMerge (target src : JSVal) : Except MergeErr JSVal :=
  if target.isNullish then .ok src
  else if src.isNullish then .ok target
  else mergeEntries target (entriesOf src)

/-- `xs.reduce(deepMerge, undefined)` starting from an accumulator:
a left fold in which a thrown error aborts the reduction. -/
def reduceMerge : JSVal → List JSVal → Except MergeErr JSVal
  | acc, [] => .ok acc
  | acc, x :: rest =>
    match deepMerge acc x with
    | .error e => .error e
    | .ok acc' => reduceMerge acc' rest

/-- The seven element kinds (`InitElementType` of `private/cfn-init-internal`). -/
inductive InitElementType where
  | PACKAGE
  | GROUP
  | USER
  | SOURCE
  | FILE
  | COMMAND
  | SERVICE
  deriving DecidableEq, Repr

/-- The result of binding one element or one kind-group (`InitElementConfig`):
a config fragment and an optional authentication fragment (`.undefined` when the
element contributes none). -/
structure InitElementConfig where
  config : JSVal
  authentication : JSVal
  deriving DecidableEq

/-- A bootstrap element (the external `InitElement` interface): its kind and
its bind operation. Platform, instance role and scope are fixed for one attach
call, so the only varying component of the binding context the core supplies
is the zero-based `index`; an element is modelled as a function of it. -/
structure InitElement where
  elementType : InitElementType
  bindFn : Nat → InitElementConfig

/-- `InitConfig`: an ordered collection of elements. -/
structure InitConfig where
  elements : List InitElement

/-- `InitConfig.isEmpty`: `this.elements.length === 0`. -/
def InitConfig.isEmpty (c : InitConfig) : Bool :=
  c.elements.length == 0

/-- `InitConfig.add`: appends elements to the sequence. -/
def InitConfig.add (c : InitConfig) (es : List InitElement) : InitConfig :=
  ⟨c.elements ++ es⟩

/-- `InitConfig.bindForType`, lines 217–227: filter the elements to the given
kind, return `undefined` if none, otherwise bind each with its zero-based
index within the kind and fold configs and authentications through `deepMerge`
(the config side falling back to `{}` when nullish). -/
def bindForType (c : InitConfig) (elementType : InitElementType) :
    Except MergeErr (Option InitElementConfig) :=
  let elements := c.elements.filter (fun e => e.elementType == elementType)
  if elements.length == 0 then .ok none
  else
    let bindResults := elements.enum.map (fun p => p.2.bindFn p.1)
    match reduceMerge .undefined (bindResults.map (fun r => r.config)) with
    | .error e => .error e
    | .ok cfg =>
      match reduceMerge .undefined (bindResults.map (fun r => r.authentication)) with
      | .error e => .error e
      | .ok auth =>
        .ok (some { config := if cfg.isNullish then .obj [] else cfg
                  , authentication := auth })

/-- `packageConfig?.config`: `undefined` when the kind-group is absent. -/
def optConfig : Option InitElementConfig → JSVal
  | some r => r.config
  | none => .undefined

/-- `c?.authentication`: `undefined` when the kind-group is absent. -/
def optAuth : Option InitElementConfig → JSVal
  | some r => r.authentication
  | none => .undefined

/-- `InitConfig._bind`, lines 183–215: bind the seven kind-groups in the fixed
source order (package, group, user, source, file, command, service — service
last), fold the seven authentication fragments through `deepMerge`, and
assemble the per-kind config fragments under their plural keys. -/
def InitConfig.bindAll (c : InitConfig) : Except MergeErr InitElementConfig :=
  match bindForType c .PACKAGE with
  | .error e => .error e
  | .ok packageConfig =>
  match bindForType c .GROUP with
  | .error e => .error e
  | .ok groupsConfig =>
  match bindForType c .USER with
  | .error e => .error e
  | .ok usersConfig =>
  match bindForType c .SOURCE with
  | .error e => .error e
  | .ok sourcesConfig =>
  match bindForType c .FILE with
  | .error e => .error e
  | .ok filesConfig =>
  match bindForType c .COMMAND with
  | .error e => .error e
  | .ok commandsConfig =>
  match bindForType c .SERVICE with
  | .error e => .error e
  | .ok servicesConfig =>
  match reduceMerge .undefined
      ([packageConfig, groupsConfig, usersConfig, sourcesConfig, filesConfig,
        commandsConfig, servicesConfig].map optAuth) with
  | .error e => .error e
  | .ok authentication =>
    .ok { config := .obj
            [ ("packages", optConfig packageConfig)
            , ("groups", optConfig groupsConfig)
            , ("users", optConfig usersConfig)
            , ("sources", optConfig sourcesConfig)
            , ("files", optConfig filesConfig)
            , ("commands", optConfig commandsConfig)
            , ("services", optConfig servicesConfig) ]
        , authentication := authentication }

/-- The ordered sequence of `e._bind({index, ...})` invocations one call of
`bindForType` makes: the elements of the given kind in insertion order, each
with its zero-based index within the kind. -/
def bindInvocationsForType (c : InitConfig) (t : InitElementType) :
    List (InitElementType × InitElement × Nat) :=
  (c.elements.filter (fun e => e.elementType == t)).enum.map (fun p => (t, p.2, p.1))

/-- The ordered sequence of element-bind invocations one call of
`InitConfig.bindAll` makes: the seven `bindForType` calls in the order they
appear in the source (lines 190–197), package first, service last. -/
def bindInvocations (c : InitConfig) : List (InitElementType × InitElement × Nat) :=
  bindInvocationsForType c .PACKAGE ++ bindInvocationsForType c .GROUP ++
  bindInvocationsForType c .USER ++ bindInvocationsForType c .SOURCE ++
  bindInvocationsForType c .FILE ++ bindInvocationsForType c .COMMAND ++
  bindInvocationsForType c .SERVICE

/-- The registry: a `CloudFormationInit` object's two mappings, in insertion
order (JS `Record`s with string keys). -/
structure CloudFormationInit where
  configSets : List (String × List String)
  configs : List (String × InitConfig)

/-- The descriptive configuration errors thrown by the registry operations. -/
inductive RegError where
  /-- `CloudFormationInit already contains a config named '...'` -/
  | duplicateConfig (name : String)
  /-- `CloudFormationInit already contains a configSet named '...'` -/
  | duplicateConfigSet (name : String)
  /-- `Unknown configs referenced in definition of '...': ...` — carries the
  whole filtered list of unknown names, as the interpolated message does. -/
  | unknownConfigs (configSetName : String) (unknown : List String)
  deriving DecidableEq

/-- `CloudFormationInit.addConfig`, lines 48–53: reject a name already in the
catalog, otherwise append the config under the (new) name. -/
def CloudFormationInit.addConfig (r : CloudFormationInit) (configName : String)
    (config : InitConfig) : Except RegError CloudFormationInit :=
  if (lookupR r.configs configName).isSome then .error (.duplicateConfig configName)
  else .ok { r with configs := r.configs ++ [(configName, config)] }

/-- `CloudFormationInit.addConfigSet`, lines 60–71: reject a config-set name
already present, then reject if any referenced config name is unknown
(collecting all of them), otherwise append the member list. -/
def CloudFormationInit.addConfigSet (r : CloudFormationInit) (configSetName : String)
    (configNames : List String) : Except RegError CloudFormationInit :=
  if (lookupR r.configSets configSetName).isSome then
    .error (.duplicateConfigSet configSetName)
  else
    let unk := configNames.filter (fun c => (lookupR r.configs c).isNone)
    if unk.length > 0 then .error (.unknownConfigs configSetName unk)
    else .ok { r with configSets := r.configSets ++ [(configSetName, configNames)] }

/-- `mapValues`, lines 283–292: map over the values of a record in insertion
order, dropping entries on which the function returns `undefined`. -/
def mapValues {α β : Type} (xs : List (String × α)) (fn : α → Option β) :
    List (String × β) :=
  match xs with
  | [] => []
  | (k, v) :: rest =>
    match fn v with
    | some b => (k, b) :: mapValues rest fn
    | none => mapValues rest fn

/-- Line 139: `mapValues(this._configs, c => c.isEmpty() ? undefined : c)`. -/
def nonEmptyConfigs (r : CloudFormationInit) : List (String × InitConfig) :=
  mapValues r.configs (fun c => if c.isEmpty then none else some c)

/-- Line 145: `configNames.filter(name => nonEmptyConfigs[name] !== undefined)`. -/
def renderedSetMembers (r : CloudFormationInit) (configNames : List String) :
    List String :=
  configNames.filter (fun name => (lookupR (nonEmptyConfigs r) name).isSome)

/-- The `configSets:` slot of the rendered document: each registered set's
member list filtered to non-empty configs, as a JS value. -/
def configSetsSlot (r : CloudFormationInit) : JSVal :=
  .obj (r.configSets.map (fun p => (p.1, .arr ((renderedSetMembers r p.2).map .str))))

/-- Line 141: `mapValues(nonEmptyConfigs, c => c._bind(scope, options))`:
bind each non-empty config in insertion order; a thrown merge error aborts. -/
def bindEntries : List (String × InitConfig) → Except MergeErr (List (String × InitElementConfig))
  | [] => .ok []
  | (k, c) :: rest =>
    match c.bindAll with
    | .error e => .error e
    | .ok b =>
      match bindEntries rest with
      | .error e => .error e
      | .ok bs => .ok ((k, b) :: bs)

/-- The bound `(name, fragment-pair)` entries of a registry's non-empty configs. -/
def boundConfigEntries (r : CloudFormationInit) :
    Except MergeErr (List (String × InitElementConfig)) :=
  bindEntries (nonEmptyConfigs r)

/-- The two-part result of `CloudFormationInit.bind` (lines 143–149). -/
structure BindResult where
  configData : JSVal
  authData : JSVal
  deriving DecidableEq

/-- JS object-literal spread `{ ...base-fields, ...more }`: each entry of
`more`, in order, is assigned into the accumulated object (overwriting the
value of an existing key in place, appending a new key). -/
def spreadEntries (base : List (String × JSVal)) (more : List (String × JSVal)) :
    List (String × JSVal) :=
  more.foldl (fun acc p => objAssign acc p.1 p.2) base

/-- `CloudFormationInit.bind`, lines 138–150: the rendered document —
`configData` is `{ configSets: <filtered member lists>, ...<bound configs> }`
and `authData` is the fold of the bound configs' authentication fragments. -/
def CloudFormationInit.bind (r : CloudFormationInit) : Except MergeErr BindResult :=
  match boundConfigEntries r with
  | .error e => .error e
  | .ok bound =>
    match reduceMerge .undefined (bound.map (fun p => p.2.authentication)) with
    | .error e => .error e
    | .ok auth =>
      .ok { configData := .obj (spreadEntries [("configSets", configSetsSlot r)]
              (bound.map (fun p => (p.1, p.2.config))))
          , authData := auth }

/-- Lower-case hex digit of a nibble. -/
def hexDigitChar (n : Nat) : Char :=
  if n < 10 then Char.ofNat (48 + n) else Char.ofNat (87 + n)

/-- Exactly `k` lower-case hex digits of `n`, most significant first. -/
def toHexChars : Nat → Nat → List Char
  | _, 0 => []
  | n, k + 1 => toHexChars (n / 16) k ++ [hexDigitChar (n % 16)]

/-- Modelled from the spec: `contentHash` (line 294–296) calls the sha256
primitive of the external `crypto` module, which is not part of this
repository; the spec treats "the underlying hashing primitive" as an opaque
external collaborator producing a cryptographic content hash in hex. It is
modelled as a deterministic function of the content producing the 64
lower-case hex characters of a 256-bit value. -/
def contentHash (content : String) : String :=
  ⟨toHexChars (content.data.foldl (fun a c => (a * 131 + c.toNat) % 2 ^ 256) 5381) 64⟩

/-- Quote and escape a string as JSON (`"` and `\` escaped; the control
characters JSON additionally escapes do not occur in rendered documents). -/
def jsonQuote (s : String) : String :=
  "\"" ++ String.join (s.data.map (fun c =>
    if c = '"' then "\\\"" else if c = '\\' then "\\\\" else c.toString)) ++ "\""

mutual

/-- `JSON.stringify`: object entries with `undefined` values are dropped,
`undefined` inside an array renders as `null` (a top-level `undefined`, which
does not occur for rendered documents, is also rendered `null`). -/
def jsonStringify : JSVal → String
  | .undefined => "null"
  | .null => "null"
  | .bool b => if b then "true" else "false"
  | .num n => toString n
  | .str s => jsonQuote s
  | .arr xs => "[" ++ jsonArrayBody xs ++ "]"
  | .obj fields => "\x7b" ++ jsonObjBody fields ++ "\x7d"

/-- Comma-separated JSON rendering of array elements. -/
def jsonArrayBody : List JSVal → String
  | [] => ""
  | [x] => jsonStringify x
  | x :: y :: rest => jsonStringify x ++ "," ++ jsonArrayBody (y :: rest)

/-- Comma-separated JSON rendering of object entries, skipping `undefined`
values as `JSON.stringify` does. -/
def jsonObjBody : List (String × JSVal) → String
  | [] => ""
  | (k, v) :: rest =>
    if v = .undefined then jsonObjBody rest
    else
      let item := jsonQuote k ++ ":" ++ jsonStringify v
      let restS := jsonObjBody rest
      if restS = "" then item else item ++ "," ++ restS

end

/-- Line 95: `contentHash(JSON.stringify(bindResult.configData)).substr(0, 16)` —
the fingerprint `_attach` derives from the rendered document (`substr(0, 16)`
is the first 16 characters of the digest). -/
def attachFingerprint (configData : JSVal) : String :=
  ⟨(contentHash (jsonStringify configData)).data.take 16⟩

/-- Lower-case hex character test. -/
def isHexChar (c : Char) : Bool :=
  ('0' ≤ c && c ≤ '9') || ('a' ≤ c && c ≤ 'f')

/-- The plural key under which each kind's fragment is stored in the object
literal of lines 203–212 (`packages: packageConfig?.config`, …). -/
def pluralKey : InitElementType → String
  | .PACKAGE => "packages"
  | .GROUP => "groups"
  | .USER => "users"
  | .SOURCE => "sources"
  | .FILE => "files"
  | .COMMAND => "commands"
  | .SERVICE => "services"

/-- The element list of a sequence-valued `JSVal` (`[]` otherwise; only used
where the value is known to be a sequence). -/
def toArrList : JSVal → List JSVal
  | .arr xs => xs
  | _ => []

/-- The sequence stored at key `k` (`[]` when the key is missing; only used on
objects whose values are all sequences). -/
def getArrD (fs : List (String × JSVal)) (k : String) : List JSVal :=
  match lookupR fs k with
  | some (.arr xs) => xs
  | _ => []

/-- One step of merging a sequence-valued source entry into a flat object:
`target[key] = Array.from(new Set([...(target[key] ?? []), ...value]))`. -/
def flatStep (fs : List (String × JSVal)) (k : String) (xs : List JSVal) :
    List (String × JSVal) :=
  objAssign fs k (.arr (jsDedup (getArrD fs k ++ xs)))

/-- The effect of the `deepMerge` entry loop on a flat object whose source
entries are all sequence-valued (the specification function against which
`mergeEntries` is proved below). -/
def flatMerge (fs : List (String × JSVal)) : List (String × JSVal) → List (String × JSVal)
  | [] => fs
  | (k, v) :: rest => flatMerge (flatStep fs k (toArrList v)) rest

/-- Whether every value of an object's field list is a sequence. -/
def allArrVals (fs : List (String × JSVal)) : Bool :=
  fs.all (fun p => p.2.isArray)

/-! ## Properties of the set-style de-duplication -/

theorem mem_jsDedupAux (l : List JSVal) :
    ∀ (seen : List JSVal) (a : JSVal), a ∈ jsDedupAux l seen ↔ a ∈ l ∧ a ∉ seen := by
  induction l with
  | nil => simp [jsDedupAux]
  | cons x xs ih =>
    intro seen a
    by_cases hx : x ∈ seen
    · rw [jsDedupAux, if_pos hx, ih]
      constructor
      · rintro ⟨h1, h2⟩; exact ⟨List.mem_cons_of_mem _ h1, h2⟩
      · rintro ⟨h1, h2⟩
        rcases List.mem_cons.1 h1 with rfl | h1
        · exact absurd hx h2
        · exact ⟨h1, h2⟩
    · rw [jsDedupAux, if_neg hx]
      constructor
      · intro h
        rcases List.mem_cons.1 h with rfl | h
        · exact ⟨List.mem_cons_self _ _, hx⟩
        · rcases (ih _ _).1 h with ⟨h1, h2⟩
          exact ⟨List.mem_cons_of_mem _ h1, fun hs => h2 (List.mem_cons_of_mem _ hs)⟩
      · rintro ⟨h1, h2⟩
        by_cases hax : a = x
        · exact hax ▸ List.mem_cons_self _ _
        · rcases List.mem_cons.1 h1 with rfl | h1
          · exact absurd rfl hax
          · exact List.mem_cons_of_mem _ ((ih _ _).2
              ⟨h1, fun hs => (List.mem_cons.1 hs).elim hax h2⟩)

theorem nodup_jsDedupAux (l : List JSVal) : ∀ seen, (jsDedupAux l seen).Nodup := by
  induction l with
  | nil => intro seen; simp [jsDedupAux]
  | cons x xs ih =>
    intro seen
    by_cases hx : x ∈ seen
    · rw [jsDedupAux, if_pos hx]; exact ih seen
    · rw [jsDedupAux, if_neg hx]
      refine List.nodup_cons.2 ⟨fun hmem => ?_, ih _⟩
      exact ((mem_jsDedupAux _ _ _).1 hmem).2 (List.mem_cons_self _ _)

theorem jsDedupAux_congr (l : List JSVal) :
    ∀ (s t : List JSVal), (∀ x, x ∈ s ↔ x ∈ t) → jsDedupAux l s = jsDedupAux l t := by
  induction l with
  | nil => intro s t _; simp [jsDedupAux]
  | cons x xs ih =>
    intro s t hst
    by_cases hx : x ∈ s
    · rw [jsDedupAux, if_pos hx, jsDedupAux, if_pos ((hst x).1 hx)]
      exact ih s t hst
    · rw [jsDedupAux, if_neg hx, jsDedupAux, if_neg (fun ht => hx ((hst x).2 ht))]
      refine congrArg _ (ih _ _ ?_)
      intro y; simp only [List.mem_cons]
      exact or_congr Iff.rfl (hst y)

theorem jsDedupAux_append (a b : List JSVal) :
    ∀ s, jsDedupAux (a ++ b) s = jsDedupAux a s ++ jsDedupAux b (a ++ s) := by
  induction a with
  | nil => intro s; simp [jsDedupAux]
  | cons x a' ih =>
    intro s
    by_cases hx : x ∈ s
    · rw [List.cons_append, jsDedupAux, if_pos hx, jsDedupAux, if_pos hx, ih]
      refine congrArg _ (jsDedupAux_congr _ _ _ ?_)
      intro y; simp only [List.mem_append, List.mem_cons]
      constructor
      · rintro (h | h)
        · exact Or.inl (Or.inr h)
        · exact Or.inr h
      · rintro ((rfl | h) | h)
        · exact Or.inr hx
        · exact Or.inl h
        · exact Or.inr h
    · rw [List.cons_append, jsDedupAux, if_neg hx, jsDedupAux, if_neg hx, ih, List.cons_append]
      refine congrArg _ (congrArg _ (jsDedupAux_congr _ _ _ ?_))
      intro y; simp only [List.mem_append, List.mem_cons]
      constructor
      · rintro (h | (rfl | h))
        · exact Or.inl (Or.inr h)
        · exact Or.inl (Or.inl rfl)
        · exact Or.inr h
      · rintro ((rfl | h) | h)
        · exact Or.inr (Or.inl rfl)
        · exact Or.inl h
        · exact Or.inr (Or.inr h)

theorem jsDedupAux_jsDedupAux (b : List JSVal) :
    ∀ s t, jsDedupAux (jsDedupAux b s) t = jsDedupAux b (s ++ t) := by
  induction b with
  | nil => intro s t; simp [jsDedupAux]
  | cons x b' ih =>
    intro s t
    by_cases hxs : x ∈ s
    · rw [jsDedupAux, if_pos hxs, ih, jsDedupAux,
        if_pos (List.mem_append.2 (Or.inl hxs))]
    · by_cases hxt : x ∈ t
      · rw [jsDedupAux, if_neg hxs, jsDedupAux, if_pos hxt, ih, jsDedupAux,
          if_pos (List.mem_append.2 (Or.inr hxt))]
        refine jsDedupAux_congr _ _ _ ?_
        intro y; simp only [List.cons_append, List.mem_cons, List.mem_append]
        constructor
        · rintro (rfl | h)
          · exact Or.inr hxt
          · exact h
        · exact fun h => Or.inr h
      · rw [jsDedupAux, if_neg hxs, jsDedupAux, if_neg hxt, ih, jsDedupAux,
          if_neg (fun hm => (List.mem_append.1 hm).elim hxs hxt)]
        refine congrArg _ (jsDedupAux_congr _ _ _ ?_)
        intro y; simp only [List.cons_append, List.mem_cons, List.mem_append]
        constructor
        · rintro (rfl | h | rfl | h)
          · exact Or.inl rfl
          · exact Or.inr (Or.inl h)
          · exact Or.inl rfl
          · exact Or.inr (Or.inr h)
        · rintro (rfl | h | h)
          · exact Or.inl rfl
          · exact Or.inr (Or.inl h)
          · exact Or.inr (Or.inr (Or.inr h))

theorem mem_jsDedup (l : List JSVal) (a : JSVal) : a ∈ jsDedup l ↔ a ∈ l := by
  rw [jsDedup, mem_jsDedupAux]; simp

theorem nodup_jsDedup (l : List JSVal) : (jsDedup l).Nodup :=
  nodup_jsDedupAux l []

theorem jsDedup_append_left (a b : List JSVal) :
    jsDedup (jsDedup a ++ b) = jsDedup (a ++ b) := by
  simp only [jsDedup]
  rw [jsDedupAux_append, jsDedupAux_append, jsDedupAux_jsDedupAux]
  simp only [List.nil_append, List.append_nil]
  refine congrArg _ (jsDedupAux_congr _ _ _ ?_)
  intro y
  rw [mem_jsDedupAux]
  simp

theorem jsDedup_append_right (a b : List JSVal) :
    jsDedup (a ++ jsDedup b) = jsDedup (a ++ b) := by
  simp only [jsDedup]
  rw [jsDedupAux_append, jsDedupAux_append, jsDedupAux_jsDedupAux]
  simp only [List.nil_append, List.append_nil]

theorem jsDedup_idem (a : List JSVal) : jsDedup (jsDedup a) = jsDedup a := by
  have h := jsDedup_append_left a []
  simpa using h

/-! ## Claim C2 — merging a sequence onto a non-sequence value -/

/-- C2 (counterexample): the claim says *every* non-sequence value already at
the key makes the merge fatal, but the conflict test is a JS truthiness test
(`target[key] && !Array.isArray(target[key])`), so a `null` value at the key
(falsy, and not a sequence) raises no error at all: the merge succeeds and the
source sequence replaces the `null`. -/
theorem deepMerge_array_conflict_counterexample :
    deepMerge (.obj [("k", JSVal.null)]) (.obj [("k", .arr [.num 1])]) =
      .ok (.obj [("k", .arr [.num 1])]) := by
  simp [deepMerge, JSVal.isNullish, entriesOf, mergeEntries, getProp, lookupR,
    JSVal.truthy, JSVal.isArray, spreadIter, setProp, objAssign, jsDedup, jsDedupAux]

/-- C2 (amended): if the value at key `k` of the target is *truthy* and not a
sequence, then merging a source whose value at `k` is a sequence throws the
merge-type-conflict error (`Trying to merge array ... into a non-array ...`),
carrying the source sequence and the offending target value. -/
theorem deepMerge_array_conflict (f : List (String × JSVal)) (k : String)
    (xs : List JSVal) (tv : JSVal)
    (hl : lookupR f k = some tv) (ht : tv.truthy = true) (ha : tv.isArray = false) :
    deepMerge (.obj f) (.obj [(k, .arr xs)]) = .error (.arrayIntoNonArray xs tv) := by
  simp [deepMerge, JSVal.isNullish, entriesOf, mergeEntries, getProp, hl, ht, ha]

/-- C2 (witness): the amended theorem applied to a target holding the truthy
non-sequence string `"x"` at the key. -/
theorem deepMerge_array_conflict_witness :
    lookupR [("k", JSVal.str "x")] "k" = some (.str "x") ∧
    (JSVal.str "x").truthy = true ∧
    (JSVal.str "x").isArray = false ∧
    deepMerge (.obj [("k", .str "x")]) (.obj [("k", .arr [.num 1])]) =
      .error (.arrayIntoNonArray [.num 1] (.str "x")) :=
  ⟨by rfl, by rfl, by rfl,
    deepMerge_array_conflict [("k", JSVal.str "x")] "k" [.num 1] (.str "x")
      (by rfl) (by rfl) (by rfl)⟩

/-! ## Claim C4 — sequence-valued keys merge as duplicate-free unions -/

/-- C4: when both the target and the source hold a sequence at key `k`, the
merged value at `k` is `Array.from(new Set(target ++ source))`: it is
duplicate-free and its members are exactly the members of the union of the
two sequences (set equality); the rest of the target is untouched apart from
the in-place update of `k`. -/
theorem deepMerge_array_union (f : List (String × JSVal)) (k : String)
    (xs ys : List JSVal) (hl : lookupR f k = some (.arr xs)) :
    deepMerge (.obj f) (.obj [(k, .arr ys)]) =
      .ok (.obj (objAssign f k (.arr (jsDedup (xs ++ ys))))) ∧
    (jsDedup (xs ++ ys)).Nodup ∧
    (∀ a, a ∈ jsDedup (xs ++ ys) ↔ a ∈ xs ∨ a ∈ ys) := by
  refine ⟨?_, nodup_jsDedup _, fun a => by rw [mem_jsDedup]; simp⟩
  simp [deepMerge, JSVal.isNullish, entriesOf, mergeEntries, getProp, hl,
    JSVal.truthy, JSVal.isArray, spreadIter, setProp]

/-- C4 (witness): `{k: [a,b]}` merged with `{k: [b,c]}` — the value at `k`
is `[a,b,c]`, duplicate-free, set-equal to the union. -/
theorem deepMerge_array_union_witness :
    lookupR [("k", JSVal.arr [.str "a", .str "b"])] "k" = some (.arr [.str "a", .str "b"]) ∧
    (deepMerge (.obj [("k", .arr [.str "a", .str "b"])]) (.obj [("k", .arr [.str "b", .str "c"])]) =
      .ok (.obj (objAssign [("k", JSVal.arr [.str "a", .str "b"])] "k"
        (.arr (jsDedup ([.str "a", .str "b"] ++ [.str "b", .str "c"]))))) ∧
    (jsDedup ([JSVal.str "a", .str "b"] ++ [.str "b", .str "c"])).Nodup ∧
    (∀ a, a ∈ jsDedup ([JSVal.str "a", .str "b"] ++ [.str "b", .str "c"]) ↔
      a ∈ [JSVal.str "a", .str "b"] ∨ a ∈ [JSVal.str "b", .str "c"])) :=
  ⟨by rfl,
    deepMerge_array_union [("k", JSVal.arr [.str "a", .str "b"])] "k"
      [.str "a", .str "b"] [.str "b", .str "c"] (by rfl)⟩

/-! ## Claim C7 — duplicate registration names are rejected atomically -/

/-- C7: registering a config under a name already present in the catalog, or a
config-set under a name already present as a config-set, throws the respective
duplicate-name error; since the check precedes the map update, the error
result carries no updated registry — both mappings are left unchanged. -/
theorem registry_duplicate_names_rejected (r : CloudFormationInit)
    (name setName : String) (cfg : InitConfig) (names : List String) :
    ((lookupR r.configs name).isSome →
      r.addConfig name cfg = .error (.duplicateConfig name) ∧
      ∀ r', r.addConfig name cfg ≠ .ok r') ∧
    ((lookupR r.configSets setName).isSome →
      r.addConfigSet setName names = .error (.duplicateConfigSet setName) ∧
      ∀ r', r.addConfigSet setName names ≠ .ok r') := by
  constructor
  · intro h
    have he : r.addConfig name cfg = .error (.duplicateConfig name) := by
      simp [CloudFormationInit.addConfig, h]
    exact ⟨he, fun r' hok => by rw [he] at hok; exact Except.noConfusion hok⟩
  · intro h
    have he : r.addConfigSet setName names = .error (.duplicateConfigSet setName) := by
      simp [CloudFormationInit.addConfigSet, h]
    exact ⟨he, fun r' hok => by rw [he] at hok; exact Except.noConfusion hok⟩

/-- C7 (witness): the theorem applied to a registry already holding a config
named `a` and a config-set named `s`. -/
theorem registry_duplicate_names_rejected_witness :
    (lookupR (CloudFormationInit.mk [("s", [])] [("a", ⟨[]⟩)]).configs "a").isSome = true ∧
    (lookupR (CloudFormationInit.mk [("s", [])] [("a", ⟨[]⟩)]).configSets "s").isSome = true ∧
    (CloudFormationInit.mk [("s", [])] [("a", ⟨[]⟩)]).addConfig "a" ⟨[]⟩ =
      .error (.duplicateConfig "a") ∧
    (CloudFormationInit.mk [("s", [])] [("a", ⟨[]⟩)]).addConfigSet "s" [] =
      .error (.duplicateConfigSet "s") :=
  ⟨by rfl, by rfl,
    ((registry_duplicate_names_rejected (CloudFormationInit.mk [("s", [])] [("a", ⟨[]⟩)])
      "a" "s" ⟨[]⟩ []).1 (by rfl)).1,
    ((registry_duplicate_names_rejected (CloudFormationInit.mk [("s", [])] [("a", ⟨[]⟩)])
      "a" "s" ⟨[]⟩ []).2 (by rfl)).1⟩

/-! ## Claim C8 — unknown config references in a config-set -/

/-- C8 (counterexample): the claim quantifies over *every* call with an
unknown referenced name, but the duplicate-config-set-name check runs first:
calling `addConfigSet` with an already-registered set name *and* an unknown
config name throws the duplicate-name error, not the unknown-reference
error. -/
theorem addConfigSet_unknown_refs_counterexample :
    (CloudFormationInit.mk [("s", [])] []).addConfigSet "s" ["nope"] =
      .error (.duplicateConfigSet "s") := by
  simp [CloudFormationInit.addConfigSet, lookupR]

/-- C8 (amended): provided the config-set name is not already registered,
a call referencing at least one config name absent from the catalog throws the
unknown-reference error carrying the full filtered list of unknown names (all
offending names together, in order of appearance), every unknown entry of the
call is in that list, and no config-set is registered. -/
theorem addConfigSet_unknown_refs (r : CloudFormationInit) (setName : String)
    (names : List String)
    (hfresh : (lookupR r.configSets setName).isSome = false)
    (hbad : ∃ c ∈ names, (lookupR r.configs c).isNone) :
    r.addConfigSet setName names =
      .error (.unknownConfigs setName
        (names.filter (fun c => (lookupR r.configs c).isNone))) ∧
    (∀ c ∈ names, (lookupR r.configs c).isNone →
      c ∈ names.filter (fun c => (lookupR r.configs c).isNone)) ∧
    (∀ r', r.addConfigSet setName names ≠ .ok r') := by
  have hlen : 0 < (names.filter (fun c => (lookupR r.configs c).isNone)).length := by
    rcases hbad with ⟨c, hc, hnone⟩
    have hmem : c ∈ names.filter (fun c => (lookupR r.configs c).isNone) :=
      List.mem_filter.2 ⟨hc, hnone⟩
    exact List.length_pos.2 (List.ne_nil_of_mem hmem)
  have he : r.addConfigSet setName names =
      .error (.unknownConfigs setName
        (names.filter (fun c => (lookupR r.configs c).isNone))) := by
    simp only [CloudFormationInit.addConfigSet, hfresh, Bool.false_eq_true, if_false]
    simp [hlen]
  refine ⟨he, fun c hc hnone => List.mem_filter.2 ⟨hc, hnone⟩,
    fun r' hok => by rw [he] at hok; exact Except.noConfusion hok⟩

/-- C8 (witness): the amended theorem applied to a fresh set name `t`
referencing known `a` and unknown `x`, `y`: both unknown names are reported
together. -/
theorem addConfigSet_unknown_refs_witness :
    (lookupR (CloudFormationInit.mk [] [("a", ⟨[]⟩)]).configSets "t").isSome = false ∧
    (∃ c ∈ ["a", "x", "y"], (lookupR (CloudFormationInit.mk [] [("a", ⟨[]⟩)]).configs c).isNone) ∧
    (CloudFormationInit.mk [] [("a", ⟨[]⟩)]).addConfigSet "t" ["a", "x", "y"] =
      .error (.unknownConfigs "t" ["x", "y"]) :=
  ⟨by rfl, ⟨"x", by decide⟩,
    by
      have h := (addConfigSet_unknown_refs (CloudFormationInit.mk [] [("a", ⟨[]⟩)])
        "t" ["a", "x", "y"] (by rfl) ⟨"x", by decide⟩).1
      simpa [lookupR] using h⟩

/-! ## Association-list lemmas for the registry and object spreads -/

theorem lookupR_eq_none_iff {α : Type} (xs : List (String × α)) (k : String) :
    lookupR xs k = none ↔ k ∉ xs.map Prod.fst := by
  induction xs with
  | nil => simp [lookupR]
  | cons p rest ih =>
    obtain ⟨k', v⟩ := p
    by_cases h : k' = k
    · subst h
      simp [lookupR]
    · rw [lookupR, if_neg h, ih]
      simp [Ne.symm h]

theorem lookupR_objAssign_self (fs : List (String × JSVal)) (k : String) (v : JSVal) :
    lookupR (objAssign fs k v) k = some v := by
  induction fs with
  | nil => simp [objAssign, lookupR]
  | cons p rest ih =>
    obtain ⟨k', w⟩ := p
    by_cases h : k' = k
    · subst h
      simp [objAssign, lookupR]
    · rw [objAssign, if_neg h, lookupR, if_neg h]
      exact ih

theorem lookupR_objAssign_ne (fs : List (String × JSVal)) (k k' : String) (v : JSVal)
    (h : k' ≠ k) : lookupR (objAssign fs k v) k' = lookupR fs k' := by
  induction fs with
  | nil => simp [objAssign, lookupR, Ne.symm h]
  | cons p rest ih =>
    obtain ⟨k1, w⟩ := p
    by_cases h1 : k1 = k
    · subst h1
      rw [objAssign, if_pos rfl, lookupR, lookupR, if_neg (Ne.symm h), if_neg (Ne.symm h)]
    · rw [objAssign, if_neg h1, lookupR, lookupR]
      by_cases h2 : k1 = k'
      · rw [if_pos h2, if_pos h2]
      · rw [if_neg h2, if_neg h2]
        exact ih

theorem keys_mapValues_sublist {α β : Type} (xs : List (String × α)) (fn : α → Option β) :
    List.Sublist ((mapValues xs fn).map Prod.fst) (xs.map Prod.fst) := by
  induction xs with
  | nil => simp [mapValues]
  | cons p rest ih =>
    obtain ⟨k, v⟩ := p
    rw [mapValues]
    cases fn v with
    | some b => exact List.Sublist.cons₂ k ih
    | none => exact List.Sublist.cons k ih

theorem lookupR_mapValues {α β : Type} (xs : List (String × α)) (fn : α → Option β)
    (k : String) (hnd : (xs.map Prod.fst).Nodup) :
    lookupR (mapValues xs fn) k = (lookupR xs k).bind fn := by
  induction xs with
  | nil => simp [mapValues, lookupR]
  | cons p rest ih =>
    obtain ⟨k', v⟩ := p
    have hnd' : (rest.map Prod.fst).Nodup := (List.nodup_cons.1 hnd).2
    by_cases h : k' = k
    · subst h
      rw [lookupR, if_pos rfl, Option.some_bind, mapValues]
      cases hf : fn v with
      | some b => rw [lookupR, if_pos rfl]
      | none =>
        have hk : k' ∉ rest.map Prod.fst := (List.nodup_cons.1 hnd).1
        have : lookupR rest k' = none := (lookupR_eq_none_iff rest k').2 hk
        have hmv : lookupR (mapValues rest fn) k' = none := by
          rw [ih hnd', this, Option.none_bind]
        exact hmv
    · rw [lookupR, if_neg h, mapValues]
      cases hf : fn v with
      | some b => rw [lookupR, if_neg h]; exact ih hnd'
      | none => exact ih hnd'

theorem lookupR_map_val {α β : Type} (xs : List (String × α)) (F : α → β) (k : String) :
    lookupR (xs.map (fun p => (p.1, F p.2))) k = (lookupR xs k).map F := by
  induction xs with
  | nil => simp [lookupR]
  | cons p rest ih =>
    obtain ⟨k', v⟩ := p
    by_cases h : k' = k
    · subst h
      simp [lookupR]
    · simp only [List.map_cons, lookupR, if_neg h]
      exact ih

theorem bindEntries_keys (l : List (String × InitConfig))
    (bs : List (String × InitElementConfig)) (h : bindEntries l = .ok bs) :
    bs.map Prod.fst = l.map Prod.fst := by
  induction l generalizing bs with
  | nil =>
    rw [bindEntries] at h
    cases h
    rfl
  | cons p rest ih =>
    obtain ⟨k, c⟩ := p
    rw [bindEntries] at h
    cases hb : c.bindAll with
    | error e => rw [hb] at h; exact absurd h (by simp)
    | ok b =>
      rw [hb] at h
      cases hr : bindEntries rest with
      | error e => rw [hr] at h; exact absurd h (by simp)
      | ok bs' =>
        rw [hr] at h
        cases h
        simp [ih bs' hr]

theorem lookupR_bindEntries (l : List (String × InitConfig))
    (bs : List (String × InitElementConfig)) (k : String) (c : InitConfig)
    (h : bindEntries l = .ok bs) (hl : lookupR l k = some c) :
    ∃ b, lookupR bs k = some b ∧ c.bindAll = .ok b := by
  induction l generalizing bs with
  | nil => rw [lookupR] at hl; exact absurd hl (by simp)
  | cons p rest ih =>
    obtain ⟨k', c'⟩ := p
    rw [bindEntries] at h
    cases hb : c'.bindAll with
    | error e => rw [hb] at h; exact absurd h (by simp)
    | ok b' =>
      rw [hb] at h
      cases hr : bindEntries rest with
      | error e => rw [hr] at h; exact absurd h (by simp)
      | ok bs' =>
        rw [hr] at h
        cases h
        by_cases hk : k' = k
        · subst hk
          rw [lookupR, if_pos rfl] at hl
          cases hl
          exact ⟨b', by rw [lookupR, if_pos rfl], hb⟩
        · rw [lookupR, if_neg hk] at hl
          rcases ih bs' hr hl with ⟨b, hb1, hb2⟩
          exact ⟨b, by rw [lookupR, if_neg hk]; exact hb1, hb2⟩

theorem lookupR_spreadEntries_not_mem (base more : List (String × JSVal)) (k : String)
    (h : k ∉ more.map Prod.fst) :
    lookupR (spreadEntries base more) k = lookupR base k := by
  induction more generalizing base with
  | nil => rfl
  | cons p rest ih =>
    obtain ⟨k', v⟩ := p
    have hk : k' ≠ k := by
      intro hh
      exact h (by simp [hh])
    have hrest : k ∉ rest.map Prod.fst := fun hm => h (by simp [hm])
    have hstep : spreadEntries base ((k', v) :: rest) = spreadEntries (objAssign base k' v) rest := rfl
    rw [hstep, ih (objAssign base k' v) hrest]
    exact lookupR_objAssign_ne base k' k v (Ne.symm hk)

theorem lookupR_spreadEntries_mem (base more : List (String × JSVal)) (k : String)
    (v : JSVal) (hnd : (more.map Prod.fst).Nodup) (h : lookupR more k = some v) :
    lookupR (spreadEntries base more) k = some v := by
  induction more generalizing base with
  | nil => rw [lookupR] at h; exact absurd h (by simp)
  | cons p rest ih =>
    obtain ⟨k', w⟩ := p
    have hstep : spreadEntries base ((k', w) :: rest) = spreadEntries (objAssign base k' w) rest := rfl
    by_cases hk : k' = k
    · subst hk
      rw [lookupR, if_pos rfl] at h
      injection h with h
      subst h
      have hnm : k' ∉ rest.map Prod.fst := (List.nodup_cons.1 hnd).1
      rw [hstep, lookupR_spreadEntries_not_mem _ _ _ hnm]
      exact lookupR_objAssign_self base k' w
    · rw [lookupR, if_neg hk] at h
      rw [hstep]
      exact ih (objAssign base k' w) (List.nodup_cons.1 hnd).2 h

/-! ## Claim C1 — grouping, fixed kind order, indices -/

theorem fst_of_mem_invocations (c : InitConfig) (t : InitElementType)
    (q : InitElementType × InitElement × Nat) (h : q ∈ bindInvocationsForType c t) :
    q.1 = t := by
  rcases List.mem_map.1 h with ⟨p, _, rfl⟩; rfl

theorem filter_invocations_same (c : InitConfig) (t t' : InitElementType) :
    (bindInvocationsForType c t').filter (fun q => decide (q.1 = t)) =
      if t' = t then bindInvocationsForType c t' else [] := by
  unfold bindInvocationsForType
  rw [List.filter_map]
  by_cases h : t' = t
  · subst h
    simp [Function.comp_def]
  · simp [Function.comp_def, h]

/-- C1: the element-bind invocation sequence of `InitConfig._bind` processes
the seven kinds as groups in the fixed order package, group, user, source,
file, command, service: (i) the invocations of each kind are exactly that
kind's group; (ii) within a group, the elements bound are the insertion-order
filter of the element sequence to that kind; (iii) the indices handed out
within a group are `0, 1, …, n-1` — zero-based and unique within the kind;
(iv) a kind with no elements contributes no invocation at all; (v) the
service-kind invocations come strictly after every other invocation. -/
theorem bindAll_grouping_order (c : InitConfig) :
    (∀ t, (bindInvocations c).filter (fun q => decide (q.1 = t)) =
      bindInvocationsForType c t) ∧
    (∀ t, (bindInvocationsForType c t).map (fun q => q.2.1) =
      c.elements.filter (fun e => e.elementType == t)) ∧
    (∀ t, (bindInvocationsForType c t).map (fun q => q.2.2) =
      List.range (c.elements.filter (fun e => e.elementType == t)).length) ∧
    (∀ t, c.elements.filter (fun e => e.elementType == t) = [] →
      bindInvocationsForType c t = []) ∧
    (∃ pre, bindInvocations c = pre ++ bindInvocationsForType c .SERVICE ∧
      ∀ q ∈ pre, q.1 ≠ InitElementType.SERVICE) := by
  refine ⟨?_, ?_, ?_, ?_, ?_⟩
  · intro t
    rw [bindInvocations, List.filter_append, List.filter_append, List.filter_append,
      List.filter_append, List.filter_append, List.filter_append,
      filter_invocations_same, filter_invocations_same, filter_invocations_same,
      filter_invocations_same, filter_invocations_same, filter_invocations_same,
      filter_invocations_same]
    cases t <;> simp [bindInvocations]
  · intro t
    unfold bindInvocationsForType
    rw [List.map_map]
    have : ((fun q : InitElementType × InitElement × Nat => q.2.1) ∘
        (fun p : Nat × InitElement => (t, p.2, p.1))) = Prod.snd := rfl
    rw [this, List.enum_map_snd]
  · intro t
    unfold bindInvocationsForType
    rw [List.map_map]
    have : ((fun q : InitElementType × InitElement × Nat => q.2.2) ∘
        (fun p : Nat × InitElement => (t, p.2, p.1))) = Prod.fst := rfl
    rw [this, List.enum_map_fst]
  · intro t h
    unfold bindInvocationsForType
    rw [h]
    rfl
  · refine ⟨bindInvocationsForType c .PACKAGE ++ bindInvocationsForType c .GROUP ++
      bindInvocationsForType c .USER ++ bindInvocationsForType c .SOURCE ++
      bindInvocationsForType c .FILE ++ bindInvocationsForType c .COMMAND, ?_, ?_⟩
    · simp [bindInvocations, List.append_assoc]
    · intro q hq
      simp only [List.append_assoc, List.mem_append] at hq
      rcases hq with h | h | h | h | h | h <;>
        rw [fst_of_mem_invocations c _ q h] <;> simp

/-- C1 (witness): the theorem applied to a two-element config (one service
element inserted before one package element): the group-kind has no elements,
so it contributes no invocation. -/
theorem bindAll_grouping_order_witness :
    (InitConfig.mk [⟨.SERVICE, fun _ => ⟨.obj [], .undefined⟩⟩,
        ⟨.PACKAGE, fun _ => ⟨.obj [], .undefined⟩⟩]).elements.filter
      (fun e => e.elementType == .GROUP) = [] ∧
    bindInvocationsForType
      (InitConfig.mk [⟨.SERVICE, fun _ => ⟨.obj [], .undefined⟩⟩,
        ⟨.PACKAGE, fun _ => ⟨.obj [], .undefined⟩⟩]) .GROUP = [] :=
  ⟨by rfl,
    (bindAll_grouping_order (InitConfig.mk [⟨.SERVICE, fun _ => ⟨.obj [], .undefined⟩⟩,
      ⟨.PACKAGE, fun _ => ⟨.obj [], .undefined⟩⟩])).2.2.2.1 .GROUP (by rfl)⟩

/-! ## Claim C6 — plural keys and absent kinds -/

theorem bindForType_empty (c : InitConfig) (t : InitElementType)
    (h : c.elements.filter (fun e => e.elementType == t) = []) :
    bindForType c t = .ok none := by
  simp only [bindForType, h]
  rfl

theorem bindForType_ok_none (c : InitConfig) (t : InitElementType)
    (h : bindForType c t = .ok none) :
    c.elements.filter (fun e => e.elementType == t) = [] := by
  by_contra hne
  simp only [bindForType] at h
  rw [if_neg (by simpa [List.length_eq_zero] using hne)] at h
  split at h
  · exact Except.noConfusion h
  · split at h
    · exact Except.noConfusion h
    · exact Option.noConfusion (Except.ok.inj h)

theorem bindForType_some_config_ne_undef (c : InitConfig) (t : InitElementType)
    (fr : InitElementConfig) (h : bindForType c t = .ok (some fr)) :
    fr.config ≠ .undefined := by
  simp only [bindForType] at h
  split at h
  · exact absurd h (by simp)
  · split at h
    · exact Except.noConfusion h
    · split at h
      · exact Except.noConfusion h
      · have hfr := Option.some.inj (Except.ok.inj h)
        subst hfr
        dsimp only
        split
        · exact fun hu => JSVal.noConfusion hu
        · rename_i hnn
          intro hu
          rw [hu] at hnn
          exact hnn rfl

theorem bindAll_ok_parts (c : InitConfig) (res : InitElementConfig)
    (h : c.bindAll = .ok res) :
    ∃ p g u so fi cm sv,
      bindForType c .PACKAGE = .ok p ∧ bindForType c .GROUP = .ok g ∧
      bindForType c .USER = .ok u ∧ bindForType c .SOURCE = .ok so ∧
      bindForType c .FILE = .ok fi ∧ bindForType c .COMMAND = .ok cm ∧
      bindForType c .SERVICE = .ok sv ∧
      res.config = .obj
        [ ("packages", optConfig p), ("groups", optConfig g), ("users", optConfig u)
        , ("sources", optConfig so), ("files", optConfig fi), ("commands", optConfig cm)
        , ("services", optConfig sv) ] := by
  simp only [InitConfig.bindAll] at h
  split at h
  · exact Except.noConfusion h
  rename_i p hp
  split at h
  · exact Except.noConfusion h
  rename_i g hg
  split at h
  · exact Except.noConfusion h
  rename_i u hu
  split at h
  · exact Except.noConfusion h
  rename_i so hso
  split at h
  · exact Except.noConfusion h
  rename_i fi hfi
  split at h
  · exact Except.noConfusion h
  rename_i cm hcm
  split at h
  · exact Except.noConfusion h
  rename_i sv hsv
  split at h
  · exact Except.noConfusion h
  rename_i auth hauth
  have hres := Except.ok.inj h
  exact ⟨p, g, u, so, fi, cm, sv, hp, hg, hu, hso, hfi, hcm, hsv, by rw [← hres]⟩

/-- C6 (counterexample): a config with one package element whose bind result
carries no config fragment. The package kind-group contributes nothing, yet
the assembled object's `packages` key is not absent: the `?? {}` fallback
stores the empty object under it (and `JSON.stringify` keeps that key). -/
theorem bindAll_plural_keys_counterexample :
    (InitConfig.mk [⟨.PACKAGE, fun _ => ⟨.undefined, .undefined⟩⟩]).bindAll =
      .ok ⟨.obj
        [ ("packages", .obj []), ("groups", .undefined), ("users", .undefined)
        , ("sources", .undefined), ("files", .undefined), ("commands", .undefined)
        , ("services", .undefined) ], .undefined⟩ ∧
    getProp (.obj
        [ ("packages", .obj []), ("groups", .undefined), ("users", .undefined)
        , ("sources", .undefined), ("files", .undefined), ("commands", .undefined)
        , ("services", .undefined) ]) "packages" ≠ .undefined := by
  constructor
  · simp [InitConfig.bindAll, bindForType, List.filter, List.enum, List.enumFrom,
      beq_eq_decide, reduceMerge, deepMerge, JSVal.isNullish, entriesOf, optConfig, optAuth]
  · simp [getProp, lookupR]

theorem optConfig_undef_iff (c : InitConfig) (t : InitElementType)
    (v : Option InitElementConfig) (hv : bindForType c t = .ok v) :
    optConfig v = .undefined ↔ c.elements.filter (fun e => e.elementType == t) = [] := by
  cases v with
  | none =>
    constructor
    · intro _
      exact bindForType_ok_none c t hv
    · intro _
      rfl
  | some fr =>
    simp only [optConfig]
    constructor
    · intro hund
      exact absurd hund (bindForType_some_config_ne_undef c t fr hv)
    · intro hempty
      rw [bindForType_empty c t hempty] at hv
      exact Option.noConfusion (Except.ok.inj hv)

/-- C6 (amended): for every config whose binding succeeds and every kind, the
assembled per-config object stores the kind-group's fragment under the kind's
plural name, and the value under that key is `undefined` (elided from the
serialized document) exactly when the config has *no elements* of that kind.
When elements of the kind exist but contribute no config fragment, the key
holds the empty object `\x7b\x7d` rather than being absent. -/
theorem bindAll_plural_keys (c : InitConfig) (res : InitElementConfig)
    (h : c.bindAll = .ok res) (t : InitElementType) :
    (∀ fr, bindForType c t = .ok (some fr) →
      getProp res.config (pluralKey t) = fr.config) ∧
    (getProp res.config (pluralKey t) = .undefined ↔
      c.elements.filter (fun e => e.elementType == t) = []) := by
  rcases bindAll_ok_parts c res h with
    ⟨p, g, u, so, fi, cm, sv, hp, hg, hu, hso, hfi, hcm, hsv, hcfg⟩
  have key : ∀ (v : Option InitElementConfig), bindForType c t = .ok v →
      getProp res.config (pluralKey t) = optConfig v := by
    intro v hv
    cases t with
    | PACKAGE =>
      rw [hv] at hp
      obtain rfl := Except.ok.inj hp
      simp [pluralKey, hcfg, getProp, lookupR]
    | GROUP =>
      rw [hv] at hg
      obtain rfl := Except.ok.inj hg
      simp [pluralKey, hcfg, getProp, lookupR]
    | USER =>
      rw [hv] at hu
      obtain rfl := Except.ok.inj hu
      simp [pluralKey, hcfg, getProp, lookupR]
    | SOURCE =>
      rw [hv] at hso
      obtain rfl := Except.ok.inj hso
      simp [pluralKey, hcfg, getProp, lookupR]
    | FILE =>
      rw [hv] at hfi
      obtain rfl := Except.ok.inj hfi
      simp [pluralKey, hcfg, getProp, lookupR]
    | COMMAND =>
      rw [hv] at hcm
      obtain rfl := Except.ok.inj hcm
      simp [pluralKey, hcfg, getProp, lookupR]
    | SERVICE =>
      rw [hv] at hsv
      obtain rfl := Except.ok.inj hsv
      simp [pluralKey, hcfg, getProp, lookupR]
  constructor
  · intro fr hfr
    rw [key (some fr) hfr]
    rfl
  · cases t with
    | PACKAGE => rw [key p hp]; exact optConfig_undef_iff c _ p hp
    | GROUP => rw [key g hg]; exact optConfig_undef_iff c _ g hg
    | USER => rw [key u hu]; exact optConfig_undef_iff c _ u hu
    | SOURCE => rw [key so hso]; exact optConfig_undef_iff c _ so hso
    | FILE => rw [key fi hfi]; exact optConfig_undef_iff c _ fi hfi
    | COMMAND => rw [key cm hcm]; exact optConfig_undef_iff c _ cm hcm
    | SERVICE => rw [key sv hsv]; exact optConfig_undef_iff c _ sv hsv

/-- C6 (witness): the amended theorem applied, on the service kind, to a
single-service-element config: the fragment sits under `services` and the
`packages` key is `undefined` because there are no package elements. -/
theorem bindAll_plural_keys_witness :
    (InitConfig.mk [⟨.SERVICE, fun _ => ⟨.obj [("sysvinit", .obj [])], .undefined⟩⟩]).bindAll =
      .ok ⟨.obj
        [ ("packages", .undefined), ("groups", .undefined), ("users", .undefined)
        , ("sources", .undefined), ("files", .undefined), ("commands", .undefined)
        , ("services", .obj [("sysvinit", .obj [])]) ], .undefined⟩ ∧
    getProp (JSVal.obj
        [ ("packages", .undefined), ("groups", .undefined), ("users", .undefined)
        , ("sources", .undefined), ("files", .undefined), ("commands", .undefined)
        , ("services", .obj [("sysvinit", .obj [])]) ]) "packages" = .undefined ∧
    ((InitConfig.mk [⟨.SERVICE, fun _ => ⟨.obj [("sysvinit", .obj [])], .undefined⟩⟩]).elements.filter
      (fun e => e.elementType == .PACKAGE) = []) := by
  have hb : (InitConfig.mk [⟨.SERVICE, fun _ => ⟨.obj [("sysvinit", .obj [])], .undefined⟩⟩]).bindAll =
      .ok ⟨.obj
        [ ("packages", .undefined), ("groups", .undefined), ("users", .undefined)
        , ("sources", .undefined), ("files", .undefined), ("commands", .undefined)
        , ("services", .obj [("sysvinit", .obj [])]) ], .undefined⟩ := by
    simp [InitConfig.bindAll, bindForType, List.filter, List.enum, List.enumFrom,
      beq_eq_decide, reduceMerge, deepMerge, JSVal.isNullish, entriesOf, mergeEntries,
      getProp, lookupR, setProp, objAssign, optConfig, optAuth]
  refine ⟨hb, ?_, by rfl⟩
  have h2 := (bindAll_plural_keys _ _ hb .PACKAGE).2
  exact h2.2 (by rfl)

/-! ## Claim C10 — a config literally named `configSets` clobbers the sets slot -/

/-- C10: because the bound config entries are spread *after* the `configSets:`
key in the object literal of lines 143–147, a non-empty config registered
under the literal name `configSets` overwrites the top-level config-set slot:
the rendered value under `configSets` is that config's bound fragment, not the
membership-list object. -/
theorem bind_configSets_name_clobbers (r : CloudFormationInit) (c : InitConfig)
    (b : InitElementConfig) (res : BindResult)
    (hnd : (r.configs.map Prod.fst).Nodup)
    (hc : lookupR r.configs "configSets" = some c) (hne : c.isEmpty = false)
    (hb : c.bindAll = .ok b) (hbind : r.bind = .ok res) :
    getProp res.configData "configSets" = b.config := by
  have hnonempty : lookupR (nonEmptyConfigs r) "configSets" = some c := by
    rw [nonEmptyConfigs, lookupR_mapValues _ _ _ hnd, hc, Option.some_bind, hne]
    rfl
  have hndne : ((nonEmptyConfigs r).map Prod.fst).Nodup :=
    (keys_mapValues_sublist r.configs _).nodup hnd
  rw [CloudFormationInit.bind] at hbind
  split at hbind
  · exact Except.noConfusion hbind
  rename_i bound hbound
  split at hbind
  · exact Except.noConfusion hbind
  rename_i auth hauth
  obtain rfl := Except.ok.inj hbind
  rcases lookupR_bindEntries _ _ _ _ hbound hnonempty with ⟨b', hb1, hb2⟩
  rw [hb] at hb2
  obtain rfl := Except.ok.inj hb2
  have hkeys : (bound.map Prod.fst) = (nonEmptyConfigs r).map Prod.fst :=
    bindEntries_keys _ _ hbound
  have hndb : ((bound.map (fun p => (p.1, p.2.config))).map Prod.fst).Nodup := by
    have hsame : (bound.map (fun p => (p.1, p.2.config))).map Prod.fst = bound.map Prod.fst := by
      simp
    rw [hsame, hkeys]
    exact hndne
  have hlk : lookupR (bound.map (fun p => (p.1, p.2.config))) "configSets" =
      some b.config := by
    rw [lookupR_map_val, hb1]
    rfl
  show getProp (.obj (spreadEntries [("configSets", configSetsSlot r)]
    (bound.map (fun p => (p.1, p.2.config))))) "configSets" = b.config
  rw [getProp, lookupR_spreadEntries_mem _ _ _ _ hndb hlk]
  rfl

/-- C10 (witness): a registry whose only (non-empty) config is named
`configSets`: the rendered `configSets` value is the config's fragment, and
the membership-list object (`{default: ["configSets"]}`) is gone. -/
theorem bind_configSets_name_clobbers_witness :
    lookupR [("configSets",
        InitConfig.mk [⟨.PACKAGE, fun _ => ⟨.obj [("x", .num 1)], .undefined⟩⟩])] "configSets" =
      some (InitConfig.mk [⟨.PACKAGE, fun _ => ⟨.obj [("x", .num 1)], .undefined⟩⟩]) ∧
    (CloudFormationInit.mk [("default", ["configSets"])]
        [("configSets", InitConfig.mk [⟨.PACKAGE, fun _ => ⟨.obj [("x", .num 1)], .undefined⟩⟩])]).bind =
      .ok ⟨.obj [("configSets", .obj
        [ ("packages", .obj [("x", .num 1)]), ("groups", .undefined), ("users", .undefined)
        , ("sources", .undefined), ("files", .undefined), ("commands", .undefined)
        , ("services", .undefined) ])], .undefined⟩ ∧
    getProp (JSVal.obj [("configSets", .obj
        [ ("packages", .obj [("x", .num 1)]), ("groups", .undefined), ("users", .undefined)
        , ("sources", .undefined), ("files", .undefined), ("commands", .undefined)
        , ("services", .undefined) ])]) "configSets" = .obj
        [ ("packages", .obj [("x", .num 1)]), ("groups", .undefined), ("users", .undefined)
        , ("sources", .undefined), ("files", .undefined), ("commands", .undefined)
        , ("services", .undefined) ] := by
  have hb : (InitConfig.mk [⟨.PACKAGE, fun _ => ⟨.obj [("x", .num 1)], .undefined⟩⟩]).bindAll =
      .ok ⟨.obj
        [ ("packages", .obj [("x", .num 1)]), ("groups", .undefined), ("users", .undefined)
        , ("sources", .undefined), ("files", .undefined), ("commands", .undefined)
        , ("services", .undefined) ], .undefined⟩ := by
    simp [InitConfig.bindAll, bindForType, List.filter, List.enum, List.enumFrom,
      beq_eq_decide, reduceMerge, deepMerge, JSVal.isNullish, entriesOf, mergeEntries,
      getProp, lookupR, setProp, objAssign, optConfig, optAuth]
  have hbind : (CloudFormationInit.mk [("default", ["configSets"])]
      [("configSets", InitConfig.mk [⟨.PACKAGE, fun _ => ⟨.obj [("x", .num 1)], .undefined⟩⟩])]).bind =
      .ok ⟨.obj [("configSets", .obj
        [ ("packages", .obj [("x", .num 1)]), ("groups", .undefined), ("users", .undefined)
        , ("sources", .undefined), ("files", .undefined), ("commands", .undefined)
        , ("services", .undefined) ])], .undefined⟩ := by
    simp [CloudFormationInit.bind, boundConfigEntries, bindEntries, nonEmptyConfigs,
      mapValues, InitConfig.isEmpty, hb, reduceMerge, deepMerge, JSVal.isNullish,
      spreadEntries, objAssign, configSetsSlot, renderedSetMembers, lookupR, List.filter]
  refine ⟨by rfl, hbind, ?_⟩
  exact bind_configSets_name_clobbers _ _ _ _ (by simp) (by rfl) (by rfl) hb hbind

/-! ## Claim C5 — empty configs are elided from the rendered document -/

/-- C5: a config whose element sequence is empty is absent from the rendered
document: it contributes no bound config entry (so no entry in the configs
slot — under any name, even `configSets`), its key reads as `undefined` from
the rendered document (for names other than the `configSets` slot itself),
and it is filtered out of every rendered config-set member list — even when
explicitly referenced — the surviving members being a sublist (declared order
preserved) of the declared list. -/
theorem bind_empty_config_elided (r : CloudFormationInit) (n : String) (c : InitConfig)
    (bound : List (String × InitElementConfig))
    (hnd : (r.configs.map Prod.fst).Nodup)
    (hc : lookupR r.configs n = some c) (he : c.isEmpty = true)
    (hb : boundConfigEntries r = .ok bound) :
    n ∉ bound.map Prod.fst ∧
    (∀ res, r.bind = .ok res → n ≠ "configSets" → getProp res.configData n = .undefined) ∧
    (∀ p ∈ r.configSets, n ∉ renderedSetMembers r p.2 ∧
      List.Sublist (renderedSetMembers r p.2) p.2) := by
  have hnE : lookupR (nonEmptyConfigs r) n = none := by
    rw [nonEmptyConfigs, lookupR_mapValues _ _ _ hnd, hc, Option.some_bind, he]
    rfl
  have hnotin : n ∉ (nonEmptyConfigs r).map Prod.fst :=
    (lookupR_eq_none_iff _ _).1 hnE
  have hkeys : bound.map Prod.fst = (nonEmptyConfigs r).map Prod.fst :=
    bindEntries_keys _ _ hb
  have h1 : n ∉ bound.map Prod.fst := by
    rw [hkeys]
    exact hnotin
  refine ⟨h1, ?_, ?_⟩
  · intro res hbind hne
    rw [CloudFormationInit.bind] at hbind
    split at hbind
    · exact Except.noConfusion hbind
    rename_i bound2 hbound2
    split at hbind
    · exact Except.noConfusion hbind
    rename_i auth hauth
    obtain rfl := Except.ok.inj hbind
    have hbb : bound2 = bound := by
      rw [hbound2] at hb
      exact Except.ok.inj hb
    subst hbb
    have hnm : n ∉ (bound2.map (fun p => (p.1, p.2.config))).map Prod.fst := by
      have hsame : (bound2.map (fun p => (p.1, p.2.config))).map Prod.fst =
          bound2.map Prod.fst := by simp
      rw [hsame]
      exact h1
    show getProp (.obj (spreadEntries [("configSets", configSetsSlot r)]
      (bound2.map (fun p => (p.1, p.2.config))))) n = .undefined
    rw [getProp, lookupR_spreadEntries_not_mem _ _ _ hnm, lookupR,
      if_neg (fun hh => hne hh.symm)]
    rfl
  · intro p _
    constructor
    · intro hmem
      have := (List.mem_filter.1 hmem).2
      rw [hnE] at this
      exact Bool.noConfusion this
    · exact List.filter_sublist p.2

/-- C5 (witness): catalog `A` (one package element) and empty `B`, config-set
`default = [A, B]` — `B` binds no entry and the rendered member list is `[A]`,
a sublist of the declared `[A, B]`; the rendered document reads `undefined`
at `B`. -/
theorem bind_empty_config_elided_witness :
    lookupR (CloudFormationInit.mk [("default", ["A", "B"])]
      [("A", InitConfig.mk [⟨.PACKAGE, fun _ => ⟨.obj [("x", .num 1)], .undefined⟩⟩]),
       ("B", InitConfig.mk [])]).configs "B" = some (InitConfig.mk []) ∧
    (InitConfig.mk []).isEmpty = true ∧
    boundConfigEntries (CloudFormationInit.mk [("default", ["A", "B"])]
      [("A", InitConfig.mk [⟨.PACKAGE, fun _ => ⟨.obj [("x", .num 1)], .undefined⟩⟩]),
       ("B", InitConfig.mk [])]) =
      .ok [("A", ⟨.obj
        [ ("packages", .obj [("x", .num 1)]), ("groups", .undefined), ("users", .undefined)
        , ("sources", .undefined), ("files", .undefined), ("commands", .undefined)
        , ("services", .undefined) ], .undefined⟩)] ∧
    ("B" ∉ ([("A", (⟨.obj
        [ ("packages", .obj [("x", .num 1)]), ("groups", .undefined), ("users", .undefined)
        , ("sources", .undefined), ("files", .undefined), ("commands", .undefined)
        , ("services", .undefined) ], .undefined⟩ : InitElementConfig))].map Prod.fst) ∧
     (∀ p ∈ (CloudFormationInit.mk [("default", ["A", "B"])]
        [("A", InitConfig.mk [⟨.PACKAGE, fun _ => ⟨.obj [("x", .num 1)], .undefined⟩⟩]),
         ("B", InitConfig.mk [])]).configSets,
        "B" ∉ renderedSetMembers (CloudFormationInit.mk [("default", ["A", "B"])]
          [("A", InitConfig.mk [⟨.PACKAGE, fun _ => ⟨.obj [("x", .num 1)], .undefined⟩⟩]),
           ("B", InitConfig.mk [])]) p.2)) := by
  have hb : boundConfigEntries (CloudFormationInit.mk [("default", ["A", "B"])]
      [("A", InitConfig.mk [⟨.PACKAGE, fun _ => ⟨.obj [("x", .num 1)], .undefined⟩⟩]),
       ("B", InitConfig.mk [])]) =
      .ok [("A", ⟨.obj
        [ ("packages", .obj [("x", .num 1)]), ("groups", .undefined), ("users", .undefined)
        , ("sources", .undefined), ("files", .undefined), ("commands", .undefined)
        , ("services", .undefined) ], .undefined⟩)] := by
    simp [boundConfigEntries, bindEntries, nonEmptyConfigs, mapValues, InitConfig.isEmpty,
      InitConfig.bindAll, bindForType, List.filter, List.enum, List.enumFrom,
      beq_eq_decide, reduceMerge, deepMerge, JSVal.isNullish, entriesOf, mergeEntries,
      getProp, lookupR, setProp, objAssign, optConfig, optAuth]
  have hmain := bind_empty_config_elided _ "B" (InitConfig.mk []) _
    (by simp) (by rfl) (by rfl) hb
  exact ⟨by rfl, by rfl, hb, hmain.1, fun p hp => (hmain.2.2 p hp).1⟩

/-! ## Claim C9 — the fingerprint is a deterministic 16-hex-character digest -/

theorem length_toHexChars (k : Nat) : ∀ n, (toHexChars n k).length = k := by
  induction k with
  | zero => intro n; rfl
  | succ k ih =>
    intro n
    rw [toHexChars, List.length_append, ih]
    simp

theorem isHexChar_hexDigitChar (m : Nat) (h : m < 16) :
    isHexChar (hexDigitChar m) = true := by
  interval_cases m <;> decide

theorem mem_toHexChars_isHex (k : Nat) :
    ∀ n c, c ∈ toHexChars n k → isHexChar c = true := by
  induction k with
  | zero => intro n c hc; exact absurd hc (List.not_mem_nil c)
  | succ k ih =>
    intro n c hc
    rw [toHexChars] at hc
    rcases List.mem_append.1 hc with h | h
    · exact ih _ c h
    · rcases List.mem_singleton.1 h with rfl
      exact isHexChar_hexDigitChar _ (Nat.mod_lt _ (by norm_num))

theorem attachFingerprint_length (d : JSVal) : (attachFingerprint d).length = 16 := by
  simp only [attachFingerprint, contentHash, String.length, List.length_take,
    length_toHexChars]
  norm_num

theorem attachFingerprint_hex (d : JSVal) :
    ∀ ch ∈ (attachFingerprint d).data, isHexChar ch = true := by
  simp only [attachFingerprint, contentHash]
  intro ch hch
  exact mem_toHexChars_isHex 64 _ ch (List.take_subset _ _ hch)

/-- C9: the fingerprint `_attach` computes is a function of the rendered
document alone: any two registries whose `bind` produces the same
`configData` (in particular, the identical registry bound twice with no
mutation in between) get the identical fingerprint; and the fingerprint is
the truncation of the content digest of the canonical JSON serialization to
exactly 16 hex characters. -/
theorem attach_fingerprint_deterministic (r1 r2 : CloudFormationInit)
    (b1 b2 : BindResult) (h1 : r1.bind = .ok b1) (h2 : r2.bind = .ok b2)
    (hcd : b1.configData = b2.configData) :
    attachFingerprint b1.configData = attachFingerprint b2.configData ∧
    (attachFingerprint b1.configData).length = 16 ∧
    (∀ ch ∈ (attachFingerprint b1.configData).data, isHexChar ch = true) :=
  ⟨by rw [hcd], attachFingerprint_length _, attachFingerprint_hex _⟩

/-- C9 (witness): the theorem applied twice to the registry with one empty
config-set `default` and no configs. -/
theorem attach_fingerprint_deterministic_witness :
    (CloudFormationInit.mk [("default", [])] []).bind =
      .ok ⟨.obj [("configSets", .obj [("default", .arr [])])], .undefined⟩ ∧
    attachFingerprint (BindResult.mk (.obj [("configSets", .obj [("default", .arr [])])]) .undefined).configData =
      attachFingerprint (BindResult.mk (.obj [("configSets", .obj [("default", .arr [])])]) .undefined).configData ∧
    (attachFingerprint (BindResult.mk (.obj [("configSets", .obj [("default", .arr [])])]) .undefined).configData).length = 16 :=
  ⟨by rfl,
    (attach_fingerprint_deterministic (CloudFormationInit.mk [("default", [])] [])
      (CloudFormationInit.mk [("default", [])] []) _ _ (by rfl) (by rfl) rfl).1,
    (attach_fingerprint_deterministic (CloudFormationInit.mk [("default", [])] [])
      (CloudFormationInit.mk [("default", [])] []) _ _ (by rfl) (by rfl) rfl).2.1⟩

/-! ## Claim C3 — merge as a fold: identities and (restricted) associativity -/

theorem lookupR_mem {α : Type} (fs : List (String × α)) (k : String) (v : α)
    (h : lookupR fs k = some v) : (k, v) ∈ fs := by
  induction fs with
  | nil => exact absurd h (by simp [lookupR])
  | cons p rest ih =>
    obtain ⟨k', w⟩ := p
    by_cases hk : k' = k
    · subst hk
      rw [lookupR, if_pos rfl] at h
      obtain rfl := Option.some.inj h
      exact List.mem_cons_self _ _
    · rw [lookupR, if_neg hk] at h
      exact List.mem_cons_of_mem _ (ih h)

theorem keys_objAssign (fs : List (String × JSVal)) (k : String) (v : JSVal) :
    (objAssign fs k v).map Prod.fst =
      if k ∈ fs.map Prod.fst then fs.map Prod.fst else fs.map Prod.fst ++ [k] := by
  induction fs with
  | nil => simp [objAssign]
  | cons p rest ih =>
    obtain ⟨k', w⟩ := p
    by_cases hk : k' = k
    · subst hk
      simp [objAssign]
    · rw [objAssign, if_neg hk, List.map_cons, List.map_cons, ih]
      by_cases hm : k ∈ rest.map Prod.fst
      · rw [if_pos hm, if_pos (by simp [hm])]
      · rw [if_neg hm, if_neg (by simp [hm, Ne.symm hk])]
        simp

theorem allArrVals_objAssign_arr (fs : List (String × JSVal)) (k : String)
    (ys : List JSVal) (h : allArrVals fs = true) :
    allArrVals (objAssign fs k (.arr ys)) = true := by
  induction fs with
  | nil => simp [objAssign, allArrVals, JSVal.isArray]
  | cons p rest ih =>
    obtain ⟨k', w⟩ := p
    rw [allArrVals, List.all_cons, Bool.and_eq_true] at h
    by_cases hk : k' = k
    · subst hk
      rw [objAssign, if_pos rfl, allArrVals, List.all_cons]
      simp only [JSVal.isArray, Bool.true_and]
      exact h.2
    · rw [objAssign, if_neg hk, allArrVals, List.all_cons]
      rw [h.1, Bool.true_and]
      exact ih h.2

theorem allArrVals_flatStep (fs : List (String × JSVal)) (k : String)
    (xs : List JSVal) (h : allArrVals fs = true) :
    allArrVals (flatStep fs k xs) = true :=
  allArrVals_objAssign_arr fs k _ h

theorem allArrVals_flatMerge (g : List (String × JSVal)) :
    ∀ f, allArrVals f = true → allArrVals (flatMerge f g) = true := by
  induction g with
  | nil => intro f hf; exact hf
  | cons q g' ih =>
    obtain ⟨k, v⟩ := q
    intro f hf
    exact ih _ (allArrVals_flatStep f k (toArrList v) hf)

theorem mergeEntries_cons_arr_none (f : List (String × JSVal)) (k : String)
    (xs : List JSVal) (rest : List (String × JSVal)) (hlk : lookupR f k = none) :
    mergeEntries (.obj f) ((k, .arr xs) :: rest) =
      mergeEntries (.obj (objAssign f k (.arr (jsDedup xs)))) rest := by
  simp [mergeEntries, getProp, hlk, JSVal.truthy, JSVal.isArray, JSVal.isNullish,
    setProp, spreadIter]

theorem mergeEntries_cons_arr_some (f : List (String × JSVal)) (k : String)
    (xs ys : List JSVal) (rest : List (String × JSVal))
    (hlk : lookupR f k = some (.arr ys)) :
    mergeEntries (.obj f) ((k, .arr xs) :: rest) =
      mergeEntries (.obj (objAssign f k (.arr (jsDedup (ys ++ xs))))) rest := by
  simp [mergeEntries, getProp, hlk, JSVal.truthy, JSVal.isArray, JSVal.isNullish,
    setProp, spreadIter]

theorem getArrD_not_mem (fs : List (String × JSVal)) (k : String)
    (h : k ∉ fs.map Prod.fst) : getArrD fs k = [] := by
  rw [getArrD, (lookupR_eq_none_iff fs k).2 h]

theorem mergeEntries_flat (g : List (String × JSVal)) :
    ∀ f, allArrVals f = true → allArrVals g = true →
      mergeEntries (.obj f) g = .ok (.obj (flatMerge f g)) := by
  induction g with
  | nil =>
    intro f _ _
    rw [flatMerge]
    simp [mergeEntries]
  | cons q g' ih =>
    obtain ⟨k, v⟩ := q
    intro f hf hg
    rw [allArrVals, List.all_cons, Bool.and_eq_true] at hg
    obtain ⟨hv, hg'⟩ := hg
    cases v with
    | arr xs =>
      have hstep : mergeEntries (.obj f) ((k, .arr xs) :: g') =
          mergeEntries (.obj (flatStep f k xs)) g' := by
        cases hlk : lookupR f k with
        | none =>
          rw [mergeEntries_cons_arr_none f k xs g' hlk, flatStep, getArrD, hlk]
          rfl
        | some w =>
          have hw : w.isArray = true := by
            have hmem := lookupR_mem f k w hlk
            rw [allArrVals, List.all_eq_true] at hf
            exact hf _ hmem
          cases w with
          | arr ys =>
            rw [mergeEntries_cons_arr_some f k xs ys g' hlk, flatStep, getArrD, hlk]
          | undefined => exact absurd hw (by simp [JSVal.isArray])
          | null => exact absurd hw (by simp [JSVal.isArray])
          | bool b => exact absurd hw (by simp [JSVal.isArray])
          | num n => exact absurd hw (by simp [JSVal.isArray])
          | str s => exact absurd hw (by simp [JSVal.isArray])
          | obj fs2 => exact absurd hw (by simp [JSVal.isArray])
      rw [hstep, flatMerge]
      exact ih _ (allArrVals_flatStep f k _ hf) hg'
    | undefined => exact absurd hv (by simp [JSVal.isArray])
    | null => exact absurd hv (by simp [JSVal.isArray])
    | bool b => exact absurd hv (by simp [JSVal.isArray])
    | num n => exact absurd hv (by simp [JSVal.isArray])
    | str s => exact absurd hv (by simp [JSVal.isArray])
    | obj fs2 => exact absurd hv (by simp [JSVal.isArray])

theorem deepMerge_flat (f g : List (String × JSVal))
    (hf : allArrVals f = true) (hg : allArrVals g = true) :
    deepMerge (.obj f) (.obj g) = .ok (.obj (flatMerge f g)) := by
  rw [deepMerge]
  simp only [JSVal.isNullish, Bool.false_eq_true, if_false]
  exact mergeEntries_flat g f hf hg

theorem keys_flatMerge (g : List (String × JSVal)) :
    ∀ f, (g.map Prod.fst).Nodup →
      (flatMerge f g).map Prod.fst =
        f.map Prod.fst ++
          (g.map Prod.fst).filter (fun k => decide (k ∉ f.map Prod.fst)) := by
  induction g with
  | nil => intro f _; simp [flatMerge]
  | cons q g' ih =>
    obtain ⟨k, v⟩ := q
    intro f hnd
    have hnd2 : (k :: g'.map Prod.fst).Nodup := by
      simpa only [List.map_cons] using hnd
    have hk_notin : k ∉ g'.map Prod.fst := (List.nodup_cons.1 hnd2).1
    have hnd' : (g'.map Prod.fst).Nodup := (List.nodup_cons.1 hnd2).2
    rw [flatMerge, ih _ hnd', flatStep, keys_objAssign]
    by_cases hm : k ∈ f.map Prod.fst
    · rw [if_pos hm]
      simp only [List.map_cons, List.filter_cons]
      rw [if_neg (by simp [hm])]
    · rw [if_neg hm]
      simp only [List.map_cons, List.filter_cons]
      rw [if_pos (by simp [hm])]
      rw [List.append_assoc]
      refine congrArg _ ?_
      rw [List.singleton_append]
      refine congrArg _ (List.filter_congr ?_)
      intro a ha
      have hak : a ≠ k := fun hh => hk_notin (hh ▸ ha)
      simp [List.mem_append, hak]

theorem nodup_keys_flatMerge (f g : List (String × JSVal))
    (hf : (f.map Prod.fst).Nodup) (hg : (g.map Prod.fst).Nodup) :
    ((flatMerge f g).map Prod.fst).Nodup := by
  rw [keys_flatMerge g f hg]
  rw [List.nodup_append]
  refine ⟨hf, (List.filter_sublist _).nodup hg, ?_⟩
  intro a ha hb
  have := (List.mem_filter.1 hb).2
  rw [decide_eq_true_eq] at this
  exact this ha

theorem lookupR_flatMerge (g : List (String × JSVal)) :
    ∀ f k, (g.map Prod.fst).Nodup →
      lookupR (flatMerge f g) k =
        if k ∈ g.map Prod.fst then
          some (.arr (jsDedup (getArrD f k ++ getArrD g k)))
        else lookupR f k := by
  induction g with
  | nil => intro f k _; simp [flatMerge]
  | cons q g' ih =>
    obtain ⟨k1, v⟩ := q
    intro f k hnd
    have hnd2 : (k1 :: g'.map Prod.fst).Nodup := by
      simpa only [List.map_cons] using hnd
    have hk1_notin : k1 ∉ g'.map Prod.fst := (List.nodup_cons.1 hnd2).1
    have hnd' : (g'.map Prod.fst).Nodup := (List.nodup_cons.1 hnd2).2
    rw [flatMerge, ih _ k hnd']
    by_cases hmem : k ∈ g'.map Prod.fst
    · have hne : k ≠ k1 := fun hh => hk1_notin (hh ▸ hmem)
      rw [if_pos hmem, if_pos (by simp [hmem])]
      have h1 : getArrD (flatStep f k1 (toArrList v)) k = getArrD f k := by
        rw [getArrD, flatStep, lookupR_objAssign_ne _ _ _ _ hne, getArrD]
      have h2 : getArrD ((k1, v) :: g') k = getArrD g' k := by
        rw [getArrD, lookupR, if_neg (Ne.symm hne), getArrD]
      rw [h1, h2]
    · by_cases hk : k = k1
      · subst hk
        rw [if_neg hmem, if_pos (by simp)]
        rw [flatStep, lookupR_objAssign_self]
        have h2 : getArrD ((k, v) :: g') k = toArrList v := by
          rw [getArrD, lookupR, if_pos rfl]
          cases v <;> rfl
        rw [h2]
      · rw [if_neg hmem, if_neg (by simp [hk, hmem])]
        rw [flatStep, lookupR_objAssign_ne _ _ _ _ hk]

theorem getArrD_flatMerge (f g : List (String × JSVal)) (k : String)
    (hg : (g.map Prod.fst).Nodup) :
    getArrD (flatMerge f g) k =
      if k ∈ g.map Prod.fst then jsDedup (getArrD f k ++ getArrD g k)
      else getArrD f k := by
  rw [getArrD, lookupR_flatMerge g f k hg]
  by_cases hm : k ∈ g.map Prod.fst
  · rw [if_pos hm, if_pos hm]
  · rw [if_neg hm, if_neg hm, getArrD]

theorem entries_ext (fs : List (String × JSVal)) :
    ∀ gs, fs.map Prod.fst = gs.map Prod.fst → (fs.map Prod.fst).Nodup →
      (∀ k, lookupR fs k = lookupR gs k) → fs = gs := by
  induction fs with
  | nil =>
    intro gs hk _ _
    cases gs with
    | nil => rfl
    | cons q gs' => exact absurd hk (by simp)
  | cons p fs' ih =>
    intro gs hk hnd hl
    obtain ⟨k, v⟩ := p
    cases gs with
    | nil => exact absurd hk (by simp)
    | cons q gs' =>
      obtain ⟨k', w⟩ := q
      have hkk : k = k' := by
        have := congrArg (fun l => l.headI) hk
        simpa using this
      subst hkk
      have hv : v = w := by
        have := hl k
        rw [lookupR, if_pos rfl, lookupR, if_pos rfl] at this
        exact Option.some.inj this
      subst hv
      have hnd2 : (k :: fs'.map Prod.fst).Nodup := by
        simpa only [List.map_cons] using hnd
      have hknotin : k ∉ fs'.map Prod.fst := (List.nodup_cons.1 hnd2).1
      have htails : fs'.map Prod.fst = gs'.map Prod.fst := by
        have := congrArg List.tail hk
        simpa using this
      refine congrArg _ (ih gs' htails ?_ ?_)
      · exact (List.nodup_cons.1 hnd2).2
      · intro k0
        by_cases hk0 : k0 = k
        · subst hk0
          rw [(lookupR_eq_none_iff fs' k0).2 hknotin,
            (lookupR_eq_none_iff gs' k0).2 (htails ▸ hknotin)]
        · have := hl k0
          rw [lookupR, if_neg (fun hh => hk0 hh.symm), lookupR,
            if_neg (fun hh => hk0 hh.symm)] at this
          exact this

theorem flatMerge_assoc (f g h : List (String × JSVal))
    (hf : (f.map Prod.fst).Nodup) (hg : (g.map Prod.fst).Nodup)
    (hh : (h.map Prod.fst).Nodup) :
    flatMerge (flatMerge f g) h = flatMerge f (flatMerge g h) := by
  have hgh := nodup_keys_flatMerge g h hg hh
  have hfg := nodup_keys_flatMerge f g hf hg
  refine entries_ext _ _ ?_ ?_ ?_
  · rw [keys_flatMerge h _ hh, keys_flatMerge g _ hg,
      keys_flatMerge _ _ hgh, keys_flatMerge h _ hh]
    rw [List.append_assoc]
    refine congrArg _ ?_
    rw [List.filter_append]
    refine congrArg _ ?_
    rw [List.filter_filter]
    refine List.filter_congr ?_
    intro a _
    by_cases h1 : a ∈ f.map Prod.fst
    · simp [h1]
    · by_cases h2 : a ∈ g.map Prod.fst <;> simp [h1, h2]
  · exact nodup_keys_flatMerge _ h hfg hh
  · intro k
    rw [lookupR_flatMerge h _ k hh, lookupR_flatMerge _ f k hgh,
      keys_flatMerge h g hh]
    have hmem_union : (k ∈ g.map Prod.fst ++
        (h.map Prod.fst).filter (fun k => decide (k ∉ g.map Prod.fst))) ↔
        (k ∈ g.map Prod.fst ∨ k ∈ h.map Prod.fst) := by
      simp only [List.mem_append, List.mem_filter, decide_eq_true_eq]
      tauto
    by_cases h3 : k ∈ h.map Prod.fst
    · rw [if_pos h3, if_pos (hmem_union.2 (Or.inr h3))]
      rw [getArrD_flatMerge f g k hg, getArrD_flatMerge g h k hh, if_pos h3]
      by_cases h4 : k ∈ g.map Prod.fst
      · rw [if_pos h4, jsDedup_append_left, jsDedup_append_right, List.append_assoc]
      · rw [if_neg h4, getArrD_not_mem g k h4, List.nil_append, jsDedup_append_right]
    · by_cases h4 : k ∈ g.map Prod.fst
      · rw [if_neg h3, if_pos (hmem_union.2 (Or.inl h4))]
        rw [lookupR_flatMerge g f k hg, if_pos h4, getArrD_flatMerge g h k hh,
          if_neg h3]
      · rw [if_neg h3, if_neg (fun hm => (hmem_union.1 hm).elim h4 h3)]
        rw [lookupR_flatMerge g f k hg, if_neg h4]

/-- C3 (counterexample): `merge` is *not* associative over arbitrary fragments.
With `A = {k: [1]}`, `B = {k: null}`, `C = {k: [2]}`: folding left,
`merge(merge(A,B),C)` overwrites the sequence with `null` and then treats the
`null` as empty, giving `{k: [2]}`; folding right, `merge(B,C)` gives
`{k: [2]}` and `merge(A, that)` unions, giving `{k: [1,2]}` — different
values, so `merge(merge(A,B),C) ≠ merge(A, merge(B,C))`. -/
theorem deepMerge_fold_structure_counterexample :
    (deepMerge (.obj [("k", .arr [.num 1])]) (.obj [("k", JSVal.null)])).bind
      (fun ab => deepMerge ab (.obj [("k", .arr [.num 2])])) =
      .ok (.obj [("k", .arr [.num 2])]) ∧
    (deepMerge (.obj [("k", JSVal.null)]) (.obj [("k", .arr [.num 2])])).bind
      (fun bc => deepMerge (.obj [("k", .arr [.num 1])]) bc) =
      .ok (.obj [("k", .arr [.num 1, .num 2])]) ∧
    (Except.ok (.obj [("k", JSVal.arr [.num 2])]) : Except MergeErr JSVal) ≠
      .ok (.obj [("k", .arr [.num 1, .num 2])]) := by
  refine ⟨?_, ?_, by simp⟩
  · simp [deepMerge, mergeEntries, getProp, lookupR, objAssign, setProp, entriesOf,
      jsDedup, jsDedupAux, spreadIter, JSVal.isNullish, JSVal.truthy, JSVal.isArray,
      Except.bind]
  · simp [deepMerge, mergeEntries, getProp, lookupR, objAssign, setProp, entriesOf,
      jsDedup, jsDedupAux, spreadIter, JSVal.isNullish, JSVal.truthy, JSVal.isArray,
      Except.bind]

/-- C3 (amended): `merge` has absence as a two-sided identity on the fragment
domain (`merge(undefined, X) = X` for every `X`; `merge(X, undefined) = X` for
every non-nullish `X` and for `X = undefined`), so left-folding an ordered
list of optional fragments from an absent accumulator is well-defined; and
`merge` is associative on flat objects whose values are all sequences (with
the usual unique-key property of JS objects). Associativity fails for
arbitrary fragments (see the counterexample: a `null`-valued key breaks it),
so the claim's unrestricted associativity is amended to this domain. -/
theorem deepMerge_identities_and_flat_assoc :
    (∀ X, deepMerge .undefined X = .ok X) ∧
    (∀ X, X.isNullish = false → deepMerge X .undefined = .ok X) ∧
    (deepMerge .undefined .undefined = .ok .undefined) ∧
    (∀ f g h : List (String × JSVal),
      (f.map Prod.fst).Nodup → (g.map Prod.fst).Nodup → (h.map Prod.fst).Nodup →
      allArrVals f = true → allArrVals g = true → allArrVals h = true →
      (deepMerge (.obj f) (.obj g)).bind (fun ab => deepMerge ab (.obj h)) =
        (deepMerge (.obj g) (.obj h)).bind (fun bc => deepMerge (.obj f) bc)) := by
  refine ⟨?_, ?_, rfl, ?_⟩
  · intro X
    rw [deepMerge]
    simp [JSVal.isNullish]
  · intro X hX
    rw [deepMerge, if_neg (by simp [hX]), if_pos (by simp [JSVal.isNullish])]
  · intro f g h hfn hgn hhn haf hag hah
    rw [deepMerge_flat f g haf hag, deepMerge_flat g h hag hah]
    simp only [Except.bind]
    rw [deepMerge_flat _ h (allArrVals_flatMerge g f haf) hah,
      deepMerge_flat f _ haf (allArrVals_flatMerge h g hag)]
    exact congrArg _ (congrArg _ (flatMerge_assoc f g h hfn hgn hhn))

/-- C3 (witness): the amended theorem applied to the flat sequence-valued
objects `{k: [a]}`, `{k: [b]}`, `{j: [c]}`: the two fold orders agree. -/
theorem deepMerge_identities_and_flat_assoc_witness :
    (([("k", JSVal.arr [.str "a"])].map Prod.fst).Nodup ∧
     ([("k", JSVal.arr [.str "b"])].map Prod.fst).Nodup ∧
     ([("j", JSVal.arr [.str "c"])].map Prod.fst).Nodup ∧
     allArrVals [("k", JSVal.arr [.str "a"])] = true ∧
     allArrVals [("k", JSVal.arr [.str "b"])] = true ∧
     allArrVals [("j", JSVal.arr [.str "c"])] = true) ∧
    ((deepMerge (.obj [("k", .arr [.str "a"])]) (.obj [("k", .arr [.str "b"])])).bind
      (fun ab => deepMerge ab (.obj [("j", .arr [.str "c"])])) =
     (deepMerge (.obj [("k", .arr [.str "b"])]) (.obj [("j", .arr [.str "c"])])).bind
      (fun bc => deepMerge (.obj [("k", .arr [.str "a"])]) bc)) ∧
    deepMerge .undefined (.obj [("k", JSVal.arr [.str "a"])]) =
      .ok (.obj [("k", .arr [.str "a"])]) :=
  ⟨⟨by simp, by simp, by simp, by rfl, by rfl, by rfl⟩,
    (deepMerge_identities_and_flat_assoc).2.2.2
      [("k", .arr [.str "a"])] [("k", .arr [.str "b"])] [("j", .arr [.str "c"])]
      (by simp) (by simp) (by simp) (by rfl) (by rfl) (by rfl),
    (deepMerge_identities_and_flat_assoc).1 (.obj [("k", .arr [.str "a"])])⟩

end CfnInit
